import Mathlib

/-!
Verification of the crawl engine in `scraper.py` (sintoniarj/scraper-scripts).

The development shallowly embeds the two scraper classes of the source file:

* `PlaywrightScraper` — browser strategy: `scrape_page`, the link-discovery
  filter embedded in its JavaScript, `extract_content` and the `run` loop
  (including `setup_browser` failure handling and the `finally` cleanup);
* `RequestsScraper` — plain-HTTP strategy: `scrape_page` with its
  `urljoin`-based link handling and its `run` loop;
* `main` — environment parsing (`MAX_PAGES`, `CONTENT_TYPES`, `TARGET_URL`)
  and the output sequence.

External collaborators (the network, the browser DOM, BeautifulSoup's HTML
parse, `json.loads`) are modelled as oracle parameters; the Python standard
library functions `urljoin`/`urlparse` and `int` are given explicit Lean
models documented at their definitions.  All definitions are computable so
that theorems can be checked on concrete inputs.
-/

namespace Scraper

/-! ## String and URL helpers (models of `urllib.parse` and JS `URL`) -/

/-- Characters allowed in a URL scheme after the first letter
(`urllib.parse` accepts letters, digits and `+`, `-`, `.`). -/
def isSchemeChar (c : Char) : Bool :=
  c.isAlphanum || c = '+' || c = '-' || c = '.'

/-- Split a URL into scheme and remainder, as `urllib.parse.urlsplit` does:
the text before the first `:` is a scheme when it is nonempty, starts with a
letter and consists of scheme characters only.  Returns `none` when the URL
has no scheme. -/
def splitScheme (cs : List Char) : Option (List Char × List Char) :=
  let pre := cs.takeWhile (· ≠ ':')
  match cs.dropWhile (· ≠ ':') with
  | ':' :: tail =>
      match pre with
      | [] => none
      | c :: rest =>
          if c.isAlpha && rest.all isSchemeChar then some (pre, tail) else none
  | _ => none

/-- True when the string begins with a URL scheme (`https:`, `mailto:`, ...). -/
def hasScheme (s : String) : Bool := (splitScheme s.data).isSome

/-- Scheme of a URL, or `""` when it has none. -/
def schemeOf (s : String) : String :=
  match splitScheme s.data with
  | some (pre, _) => ⟨pre⟩
  | none => ""

/-- Network-location component, as `urllib.parse.urlparse(url).netloc`: after
the optional scheme, when the remainder starts with `//`, the text up to the
next `/`, `?` or `#` (ports included, matching Python). -/
def netlocOf (url : String) : String :=
  let rest := match splitScheme url.data with
    | some (_, r) => r
    | none => url.data
  match rest with
  | '/' :: '/' :: tail => ⟨tail.takeWhile (fun c => c ≠ '/' && c ≠ '?' && c ≠ '#')⟩
  | _ => ""

/-- Hostname as the browser's `new URL(href).hostname` reports it: the
netloc without a trailing `:port`.  (Userinfo does not occur in the URLs
this development handles.) -/
def jsHostname (url : String) : String :=
  ⟨(netlocOf url).data.takeWhile (· ≠ ':')⟩

/-- URL with its fragment removed (`urllib.parse.urldefrag(url)[0]`). -/
def defragUrl (url : String) : String :=
  ⟨url.data.takeWhile (· ≠ '#')⟩

/-- URL with fragment and query removed. -/
def stripQueryFrag (url : String) : String :=
  ⟨url.data.takeWhile (fun c => c ≠ '?' && c ≠ '#')⟩

/-- Scheme and authority of an absolute URL, e.g. `https://example.com`. -/
def schemeNetloc (url : String) : String :=
  schemeOf url ++ "://" ++ netlocOf url

/-- Directory prefix of a URL: everything up to and including the last `/`
that follows the authority (used for resolving relative references). -/
def dirOf (url : String) : String :=
  let base := stripQueryFrag url
  let auth := schemeNetloc url
  let path := base.data.drop auth.length
  if path.contains '/' then
    ⟨base.data.take (auth.length + (path.length - (path.reverse.takeWhile (· ≠ '/')).length))⟩
  else base ++ "/"

/-- Model of `urllib.parse.urljoin(base, url)`.  Covers the reference forms
the scraper encounters: empty references, references carrying their own
scheme (returned unchanged), protocol-relative `//...`, bare fragments
`#...`, bare queries `?...`, root-relative `/...` and plain relative paths
(merged onto the base's directory).  Two simplifications of the stdlib
collaborator: dot-segment normalization is not performed, and a reference
whose scheme equals the base's but that lacks an authority is returned
unchanged instead of being merged; no theorem below exercises either case. -/
def urljoin (base url : String) : String :=
  if url = "" then base
  else if base = "" then url
  else if hasScheme url then url
  else match url.data with
    | '/' :: '/' :: _ => schemeOf base ++ ":" ++ url
    | '#' :: _ => defragUrl base ++ url
    | '?' :: _ => stripQueryFrag base ++ url
    | '/' :: _ => schemeNetloc base ++ url
    | _ => dirOf base ++ url

/-- Python string slicing `s[:n]`: the first `n` characters of `s`.
(Defined over the character list so that it evaluates in time proportional
to the string length, not to `n`.) -/
def strTake (s : String) (n : Nat) : String := ⟨s.data.take n⟩

/-! ## Content-type map (Python dict of booleans) -/

/-- Content-type configuration: a Python dict mapping extractor names to
booleans, modelled as an association list. -/
abbrev CtMap := List (String × Bool)

/-- Model of Python's `d.get(key, default)` on a boolean dict. -/
def ctGet (m : CtMap) (key : String) (dflt : Bool) : Bool :=
  match m.lookup key with
  | some b => b
  | none => dflt

/-- Built-in default content-type map, written twice in the source: in
`main`'s `except` fallback and in `PlaywrightScraper.__init__`'s
`config.get` default. -/
def defaultContentTypes : CtMap :=
  [("text", true), ("images", true), ("code", true), ("links", false),
   ("json", true), ("tables", true), ("media", true), ("files", false)]

/-! ## DOM model and the extraction pipeline (`PlaywrightScraper.extract_content`)

The browser's rendered DOM is modelled as the raw element data the injected
JavaScript snippets read (`document.images`, `document.links`,
`querySelectorAll` results); the mapping and filtering those snippets
perform, and the truncation done on the Python side, are translated below. -/

/-- An `<img>` element as `document.images` exposes it. -/
structure ImgEl where
  src : String
  alt : String
  naturalWidth : Int
  naturalHeight : Int
deriving DecidableEq, Repr

/-- A `pre`/`code`/`.highlight`/`.code-block` element: its tag name, class
attribute and `innerText.trim()`. -/
structure CodeEl where
  tagName : String
  className : String
  innerTextTrimmed : String
deriving DecidableEq, Repr

/-- An anchor from `document.links`: resolved `href` and `innerText.trim()`. -/
structure AnchorEl where
  href : String
  innerTextTrimmed : String
deriving DecidableEq, Repr

/-- A `<table>` element: its `th` texts and, per `tr`, the `td` texts. -/
structure TableEl where
  headers : List String
  trs : List (List String)
deriving DecidableEq, Repr

/-- A `video`/`audio`/embed-iframe element matched by the media selector. -/
structure MediaEl where
  tagName : String
  src : String
  poster : String
deriving DecidableEq, Repr

/-- The rendered page as the extraction snippets observe it.  `ldScripts`
holds, per `application/ld+json` script tag, the result of `JSON.parse` on
its body (`none` = malformed, silently skipped by the catch); the parsed
JSON value itself is opaque and represented by the raw text. -/
structure Dom where
  title : String
  /-- The `innerText` of the body clone after removing
  script/style/nav/footer/header/aside elements. -/
  bodyTextCleaned : String
  images : List ImgEl
  codeEls : List CodeEl
  anchors : List AnchorEl
  ldScripts : List (Option String)
  tables : List TableEl
  mediaEls : List MediaEl
deriving DecidableEq, Repr

/-- A page with nothing on it. -/
def emptyDom : Dom :=
  { title := "", bodyTextCleaned := "", images := [], codeEls := [],
    anchors := [], ldScripts := [], tables := [], mediaEls := [] }

/-- Image descriptor produced by the images snippet. -/
structure ImgDesc where
  src : String
  alt : String
  width : Int
  height : Int
deriving DecidableEq, Repr

/-- Code-block descriptor produced by the code snippet. -/
structure CodeDesc where
  tag : String
  language : String
  content : String
deriving DecidableEq, Repr

/-- Link descriptor produced by the links snippet. -/
structure LinkDesc where
  href : String
  text : String
deriving DecidableEq, Repr

/-- Table descriptor produced by the tables snippet. -/
structure TableDesc where
  headers : List String
  rows : List (List String)
deriving DecidableEq, Repr

/-- Media descriptor produced by the media snippet. -/
structure MediaDesc where
  type : String
  src : String
  poster : String
deriving DecidableEq, Repr

/-- Images matched by the JS snippet: each `document.images` entry mapped to
a descriptor, kept when `img.src` is truthy and `img.width > 50`. -/
def matchedImages (dom : Dom) : List ImgDesc :=
  (dom.images.map fun img =>
    { src := img.src, alt := img.alt,
      width := img.naturalWidth, height := img.naturalHeight }).filter
    fun i => i.src ≠ "" && i.width > 50

/-- Code blocks matched by the JS snippet: elements whose trimmed text is
longer than 10 characters, with tag lowercased, `className || 'unknown'` as
language and content capped at 5000 characters. -/
def matchedCodeBlocks (dom : Dom) : List CodeDesc :=
  (dom.codeEls.filter fun el => el.innerTextTrimmed.length > 10).map fun el =>
    { tag := el.tagName.toLower,
      language := if el.className = "" then "unknown" else el.className,
      content := strTake el.innerTextTrimmed 5000 }

/-- Links matched by the JS snippet: every `document.links` entry mapped to
`(href, innerText.trim().slice(0, 100))`, kept when the href starts with
`http`. -/
def matchedLinks (dom : Dom) : List LinkDesc :=
  (dom.anchors.map fun a =>
    { href := a.href, text := strTake a.innerTextTrimmed 100 }).filter
    fun l => l.href.startsWith "http"

/-- Structured-data blocks: the successfully parsed `ld+json` script bodies,
in document order; malformed blocks are skipped by the JS catch. -/
def parsedLdBlocks (dom : Dom) : List String :=
  dom.ldScripts.filterMap id

/-- Table descriptors produced by the JS snippet: headers plus the nonempty
`td` rows, at most 100 rows per table. -/
def tableDescs (dom : Dom) : List TableDesc :=
  dom.tables.map fun t =>
    { headers := t.headers, rows := (t.trs.filter fun r => !r.isEmpty).take 100 }

/-- Media descriptors produced by the JS snippet. -/
def mediaDescs (dom : Dom) : List MediaDesc :=
  dom.mediaEls.map fun el =>
    { type := el.tagName.toLower, src := el.src, poster := el.poster }

/-- Extensions recognized by the files snippet. -/
def fileExtensions : List String :=
  [".pdf", ".doc", ".docx", ".xls", ".xlsx", ".zip", ".rar", ".csv"]

/-- Downloadable-file links matched by the JS snippet: anchors whose
lowercased href ends in a known extension. -/
def matchedFiles (dom : Dom) : List LinkDesc :=
  (dom.anchors.filter fun a =>
    fileExtensions.any fun ext => a.href.toLower.endsWith ext).map
    fun a => { href := a.href, text := a.innerTextTrimmed }

/-- The record `extract_content` builds for one page.  Each optional field
is present exactly when its extractor was enabled; the source builds the
dict by conditional insertion, modelled here as conditional fields. -/
structure PageRec where
  url : String
  title : String
  text : Option String := none
  text_length : Option Nat := none
  images : Option (List ImgDesc) := none
  images_count : Option Nat := none
  code_blocks : Option (List CodeDesc) := none
  code_count : Option Nat := none
  links : Option (List LinkDesc) := none
  links_count : Option Nat := none
  json_ld : Option (List String) := none
  json_count : Option Nat := none
  tables : Option (List TableDesc) := none
  tables_count : Option Nat := none
  media : Option (List MediaDesc) := none
  media_count : Option Nat := none
  files : Option (List LinkDesc) := none
  files_count : Option Nat := none
deriving DecidableEq, Repr

/-- Model of `PlaywrightScraper.extract_content`: per enabled extractor,
the truncated sample and the untruncated count, exactly as the source
assigns them (`result['images'] = images[:100]`,
`result['images_count'] = len(images)`, and so on). -/
def extract_content (ct : CtMap) (dom : Dom) (url : String) : PageRec :=
  { url := url
    title := dom.title
    text := if ctGet ct "text" true then some (strTake dom.bodyTextCleaned 100000) else none
    text_length := if ctGet ct "text" true then some dom.bodyTextCleaned.length else none
    images := if ctGet ct "images" true then some ((matchedImages dom).take 100) else none
    images_count := if ctGet ct "images" true then some (matchedImages dom).length else none
    code_blocks := if ctGet ct "code" true then some ((matchedCodeBlocks dom).take 50) else none
    code_count := if ctGet ct "code" true then some (matchedCodeBlocks dom).length else none
    links := if ctGet ct "links" false then some ((matchedLinks dom).take 500) else none
    links_count := if ctGet ct "links" false then some (matchedLinks dom).length else none
    json_ld := if ctGet ct "json" true then some (parsedLdBlocks dom) else none
    json_count := if ctGet ct "json" true then some (parsedLdBlocks dom).length else none
    tables := if ctGet ct "tables" true then some ((tableDescs dom).take 20) else none
    tables_count := if ctGet ct "tables" true then some (tableDescs dom).length else none
    media := if ctGet ct "media" true then some ((mediaDescs dom).take 50) else none
    media_count := if ctGet ct "media" true then some (mediaDescs dom).length else none
    files := if ctGet ct "files" false then some ((matchedFiles dom).take 100) else none
    files_count := if ctGet ct "files" false then some (matchedFiles dom).length else none }

/-! ## Fetch model and crawl state -/

/-- What fetching a URL can do, as the two strategies observe it.
`requests.Session.get` raises on network failures and timeouts but returns
normally for any HTTP status code (no `raise_for_status` in the source);
Playwright's `page.goto` likewise raises on network errors and navigation
timeouts but not on non-2xx responses.  A response therefore always carries
its status code together with the content, and the page body for the
plain-HTTP strategy. -/
inductive FetchOutcome (γ : Type) where
  | response (status : Int) (content : γ)
  | netError
  | timeout
deriving DecidableEq, Repr

/-- Content a successful browser navigation yields: the rendered DOM plus
the resolved `document.links` hrefs the crawl snippet reads. -/
structure PwContent where
  dom : Dom
  links : List String
deriving DecidableEq, Repr

/-- Content a successful plain-HTTP fetch yields after BeautifulSoup
processing: the computed title, the cleaned page text and the raw `href`
attributes of the page's anchors. -/
structure ReqContent where
  title : String
  text : String
  hrefs : List String
deriving DecidableEq, Repr

/-- Observable events a run emits: the `"Scraping: <url>"` log line, the
`"Error scraping <url>"` log line, the `"Waiting ...s before next page"` log
line (Playwright only) and the inter-page sleep itself. -/
inductive Ev where
  | scrapingLog (url : String)
  | errorLog (url : String)
  | waitingLog
  | interSleep
  | browserInitLog
deriving DecidableEq, Repr

/-- Mutable crawler state: the visited set, the pending FIFO queue, the
accumulated page records (`α` is the record type of the strategy) and the
trace of emitted events. -/
structure CrawlState (α : Type) where
  visited : List String
  queue : List String
  pages : List α
  trace : List Ev
deriving DecidableEq, Repr

/-- Initial crawl state: `self.visited = set()`, `self.queue = [base_url]`,
`self.pages = []`. -/
def initState (α : Type) (base_url : String) : CrawlState α :=
  { visited := [], queue := [base_url], pages := [], trace := [] }

/-- The scraper's configuration-derived fields, as `__init__` computes them
for either class (`RequestsScraper` has no `content_types` field; the
plain-HTTP functions below never read it). -/
structure ScraperCtx where
  base_url : String
  job_id : String
  extraction_mode : String
  max_pages : Int
  content_types : CtMap
  domain : String
deriving Repr

/-- Raw configuration handed to a scraper class, mirroring the `config`
dict built in `main` (`max_pages` and `content_types` are read with
`config.get` defaults in `__init__`, hence optional here). -/
structure Config where
  target_url : String
  job_id : String
  extraction_mode : String
  max_pages : Option Int
  content_types : Option CtMap
  callback_url : Option String

/-- Field initialization shared by `PlaywrightScraper.__init__` and
`RequestsScraper.__init__`: the page budget is forced to 1 outside `full`
mode, and the scope domain is `urlparse(base_url).netloc`. -/
def mkScraperCtx (config : Config) : ScraperCtx :=
  { base_url := config.target_url
    job_id := config.job_id
    extraction_mode := config.extraction_mode
    max_pages := if config.extraction_mode = "full" then config.max_pages.getD 10 else 1
    content_types := config.content_types.getD defaultContentTypes
    domain := netlocOf config.target_url }

/-! ## `PlaywrightScraper.scrape_page` -/

/-- One step of the link-discovery loop in `PlaywrightScraper.scrape_page`:
`if link not in self.visited and link not in self.queue:
self.queue.append(link)`. -/
def playwrightHandleLink {α : Type} (st : CrawlState α) (link : String) : CrawlState α :=
  if link ∉ st.visited ∧ link ∉ st.queue then
    { st with queue := st.queue ++ [link] }
  else st

/-- Model of `PlaywrightScraper.scrape_page`.  The whole body runs under
`try`; a navigation failure (network error or timeout raised by
`page.goto`) reaches the `except`, which logs and returns `None`.  A
response of any HTTP status proceeds: content is extracted, and in `full`
mode the hrefs of `document.links` whose hostname equals the scope domain
are offered to the queue. -/
def playwrightScrapePage (oracle : String → FetchOutcome PwContent)
    (sc : ScraperCtx) (st : CrawlState PageRec) (url : String) :
    Option PageRec × CrawlState PageRec :=
  let st0 := { st with trace := st.trace ++ [Ev.scrapingLog url] }
  match oracle url with
  | .netError => (none, { st0 with trace := st0.trace ++ [Ev.errorLog url] })
  | .timeout => (none, { st0 with trace := st0.trace ++ [Ev.errorLog url] })
  | .response _ content =>
      let result := extract_content sc.content_types content.dom url
      let st1 :=
        if sc.extraction_mode = "full" then
          (content.links.filter fun l => jsHostname l = sc.domain).foldl
            playwrightHandleLink st0
        else st0
      (some result, st1)

/-! ## `RequestsScraper.scrape_page` -/

/-- The record `RequestsScraper.scrape_page` returns on success. -/
structure ReqRec where
  url : String
  title : String
  text : String
  text_length : Nat
deriving DecidableEq, Repr

/-- One step of the link loop in `RequestsScraper.scrape_page`:
`link = urljoin(url, a['href'])`, then append when
`urlparse(link).netloc == self.domain and link not in self.visited`
(this strategy does not check the pending queue). -/
def requestsHandleHref (domain pageUrl : String) {α : Type}
    (st : CrawlState α) (href : String) : CrawlState α :=
  let link := urljoin pageUrl href
  if netlocOf link = domain ∧ link ∉ st.visited then
    { st with queue := st.queue ++ [link] }
  else st

/-- Model of `RequestsScraper.scrape_page`: a raised network error or
timeout is caught, logged and turned into `None`; any HTTP response is
parsed, its links are offered to the queue in `full` mode, and a record is
returned. -/
def requestsScrapePage (oracle : String → FetchOutcome ReqContent)
    (sc : ScraperCtx) (st : CrawlState ReqRec) (url : String) :
    Option ReqRec × CrawlState ReqRec :=
  let st0 := { st with trace := st.trace ++ [Ev.scrapingLog url] }
  match oracle url with
  | .netError => (none, { st0 with trace := st0.trace ++ [Ev.errorLog url] })
  | .timeout => (none, { st0 with trace := st0.trace ++ [Ev.errorLog url] })
  | .response _ content =>
      let st1 :=
        if sc.extraction_mode = "full" then
          content.hrefs.foldl (fun s h => requestsHandleHref sc.domain url s h) st0
        else st0
      (some { url := url, title := content.title,
              text := strTake content.text 100000,
              text_length := content.text.length }, st1)

/-! ## Preservation lemmas used by the termination arguments -/

theorem playwrightHandleLink_pages {α : Type} (st : CrawlState α) (l : String) :
    (playwrightHandleLink st l).pages = st.pages := by
  unfold playwrightHandleLink; split <;> rfl

theorem playwrightHandleLink_visited {α : Type} (st : CrawlState α) (l : String) :
    (playwrightHandleLink st l).visited = st.visited := by
  unfold playwrightHandleLink; split <;> rfl

theorem playwrightHandleLink_trace {α : Type} (st : CrawlState α) (l : String) :
    (playwrightHandleLink st l).trace = st.trace := by
  unfold playwrightHandleLink; split <;> rfl

theorem foldl_playwrightHandleLink_pages {α : Type} (links : List String)
    (st : CrawlState α) : (links.foldl playwrightHandleLink st).pages = st.pages := by
  induction links generalizing st with
  | nil => rfl
  | cons l ls ih => rw [List.foldl_cons, ih, playwrightHandleLink_pages]

theorem foldl_playwrightHandleLink_visited {α : Type} (links : List String)
    (st : CrawlState α) : (links.foldl playwrightHandleLink st).visited = st.visited := by
  induction links generalizing st with
  | nil => rfl
  | cons l ls ih => rw [List.foldl_cons, ih, playwrightHandleLink_visited]

theorem foldl_playwrightHandleLink_trace {α : Type} (links : List String)
    (st : CrawlState α) : (links.foldl playwrightHandleLink st).trace = st.trace := by
  induction links generalizing st with
  | nil => rfl
  | cons l ls ih => rw [List.foldl_cons, ih, playwrightHandleLink_trace]

theorem requestsHandleHref_pages {α : Type} (domain pageUrl : String)
    (st : CrawlState α) (href : String) :
    (requestsHandleHref domain pageUrl st href).pages = st.pages := by
  unfold requestsHandleHref; dsimp only; split <;> rfl

theorem requestsHandleHref_visited {α : Type} (domain pageUrl : String)
    (st : CrawlState α) (href : String) :
    (requestsHandleHref domain pageUrl st href).visited = st.visited := by
  unfold requestsHandleHref; dsimp only; split <;> rfl

theorem requestsHandleHref_trace {α : Type} (domain pageUrl : String)
    (st : CrawlState α) (href : String) :
    (requestsHandleHref domain pageUrl st href).trace = st.trace := by
  unfold requestsHandleHref; dsimp only; split <;> rfl

theorem foldl_requestsHandleHref_pages {α : Type} (domain pageUrl : String)
    (hrefs : List String) (st : CrawlState α) :
    ((hrefs.foldl (fun s h => requestsHandleHref domain pageUrl s h) st)).pages = st.pages := by
  induction hrefs generalizing st with
  | nil => rfl
  | cons l ls ih => rw [List.foldl_cons, ih, requestsHandleHref_pages]

theorem foldl_requestsHandleHref_visited {α : Type} (domain pageUrl : String)
    (hrefs : List String) (st : CrawlState α) :
    ((hrefs.foldl (fun s h => requestsHandleHref domain pageUrl s h) st)).visited = st.visited := by
  induction hrefs generalizing st with
  | nil => rfl
  | cons l ls ih => rw [List.foldl_cons, ih, requestsHandleHref_visited]

theorem foldl_requestsHandleHref_trace {α : Type} (domain pageUrl : String)
    (hrefs : List String) (st : CrawlState α) :
    ((hrefs.foldl (fun s h => requestsHandleHref domain pageUrl s h) st)).trace = st.trace := by
  induction hrefs generalizing st with
  | nil => rfl
  | cons l ls ih => rw [List.foldl_cons, ih, requestsHandleHref_trace]

theorem playwrightScrapePage_pages (oracle : String → FetchOutcome PwContent)
    (sc : ScraperCtx) (st : CrawlState PageRec) (url : String) :
    (playwrightScrapePage oracle sc st url).2.pages = st.pages := by
  unfold playwrightScrapePage
  cases oracle url with
  | response s c =>
      dsimp only
      split
      · rw [foldl_playwrightHandleLink_pages]
      · rfl
  | netError => rfl
  | timeout => rfl

theorem playwrightScrapePage_visited (oracle : String → FetchOutcome PwContent)
    (sc : ScraperCtx) (st : CrawlState PageRec) (url : String) :
    (playwrightScrapePage oracle sc st url).2.visited = st.visited := by
  unfold playwrightScrapePage
  cases oracle url with
  | response s c =>
      dsimp only
      split
      · rw [foldl_playwrightHandleLink_visited]
      · rfl
  | netError => rfl
  | timeout => rfl

theorem playwrightScrapePage_fail_queue (oracle : String → FetchOutcome PwContent)
    (sc : ScraperCtx) (st st3 : CrawlState PageRec) (url : String)
    (h : playwrightScrapePage oracle sc st url = (none, st3)) : st3.queue = st.queue := by
  unfold playwrightScrapePage at h
  cases ho : oracle url <;> rw [ho] at h <;> simp at h
  · rw [← h]
  · rw [← h]

theorem requestsScrapePage_pages (oracle : String → FetchOutcome ReqContent)
    (sc : ScraperCtx) (st : CrawlState ReqRec) (url : String) :
    (requestsScrapePage oracle sc st url).2.pages = st.pages := by
  unfold requestsScrapePage
  cases oracle url with
  | response s c =>
      dsimp only
      split
      · rw [foldl_requestsHandleHref_pages]
      · rfl
  | netError => rfl
  | timeout => rfl

theorem requestsScrapePage_visited (oracle : String → FetchOutcome ReqContent)
    (sc : ScraperCtx) (st : CrawlState ReqRec) (url : String) :
    (requestsScrapePage oracle sc st url).2.visited = st.visited := by
  unfold requestsScrapePage
  cases oracle url with
  | response s c =>
      dsimp only
      split
      · rw [foldl_requestsHandleHref_visited]
      · rfl
  | netError => rfl
  | timeout => rfl

theorem requestsScrapePage_fail_queue (oracle : String → FetchOutcome ReqContent)
    (sc : ScraperCtx) (st st3 : CrawlState ReqRec) (url : String)
    (h : requestsScrapePage oracle sc st url = (none, st3)) : st3.queue = st.queue := by
  unfold requestsScrapePage at h
  cases ho : oracle url <;> rw [ho] at h <;> simp at h
  · rw [← h]
  · rw [← h]

/-! ## The run loops -/

/-- Model of the inter-page politeness block in `PlaywrightScraper.run`:
`if len(self.pages) < self.max_pages and self.queue:` log the wait and
sleep. -/
def pwDelay (sc : ScraperCtx) (st : CrawlState PageRec) : CrawlState PageRec :=
  if (st.pages.length : Int) < sc.max_pages ∧ st.queue ≠ [] then
    { st with trace := st.trace ++ [Ev.waitingLog, Ev.interSleep] }
  else st

theorem pwDelay_pages (sc : ScraperCtx) (st : CrawlState PageRec) :
    (pwDelay sc st).pages = st.pages := by
  unfold pwDelay; split <;> rfl

theorem pwDelay_queue (sc : ScraperCtx) (st : CrawlState PageRec) :
    (pwDelay sc st).queue = st.queue := by
  unfold pwDelay; split <;> rfl

theorem pwDelay_visited (sc : ScraperCtx) (st : CrawlState PageRec) :
    (pwDelay sc st).visited = st.visited := by
  unfold pwDelay; split <;> rfl

/-- Model of the `while self.queue and len(self.pages) < self.max_pages`
loop in `PlaywrightScraper.run`: pop the queue head, skip it when already
visited, otherwise mark it visited, scrape it, append the record when the
scrape succeeded, and run the politeness delay. -/
def playwrightRunLoop (oracle : String → FetchOutcome PwContent) (sc : ScraperCtx)
    (st : CrawlState PageRec) : CrawlState PageRec :=
  match hq : st.queue with
  | [] => st
  | url :: rest =>
    if hb : (st.pages.length : Int) < sc.max_pages then
      if url ∈ st.visited then
        playwrightRunLoop oracle sc { st with queue := rest }
      else
        let st2 : CrawlState PageRec := { st with queue := rest, visited := st.visited ++ [url] }
        match hres : playwrightScrapePage oracle sc st2 url with
        | (some r, st3) =>
            playwrightRunLoop oracle sc (pwDelay sc { st3 with pages := st3.pages ++ [r] })
        | (none, st3) =>
            playwrightRunLoop oracle sc (pwDelay sc st3)
    else st
termination_by ((sc.max_pages - st.pages.length).toNat, st.queue.length)
decreasing_by
  · rw [Prod.lex_def]
    right
    exact ⟨rfl, by simp [hq]⟩
  · rw [Prod.lex_def]
    left
    have h3 : st3.pages = st.pages := by
      have h := playwrightScrapePage_pages oracle sc st2 url
      rw [hres] at h
      exact h
    simp only [pwDelay_pages, List.length_append, h3]
    simp only [List.length_cons]
    omega
  · rw [Prod.lex_def]
    right
    have h3 : st3.pages = st.pages := by
      have h := playwrightScrapePage_pages oracle sc st2 url
      rw [hres] at h
      exact h
    have hqe : st3.queue = rest := playwrightScrapePage_fail_queue oracle sc st2 st3 url hres
    exact ⟨by simp only [pwDelay_pages, h3], by simp only [pwDelay_queue, hqe, hq]; simp⟩

/-- Model of the `while` loop in `RequestsScraper.run`: identical structure,
except that `time.sleep` runs unconditionally after each processed URL (the
`continue` for visited URLs skips it). -/
def requestsRunLoop (oracle : String → FetchOutcome ReqContent) (sc : ScraperCtx)
    (st : CrawlState ReqRec) : CrawlState ReqRec :=
  match hq : st.queue with
  | [] => st
  | url :: rest =>
    if hb : (st.pages.length : Int) < sc.max_pages then
      if url ∈ st.visited then
        requestsRunLoop oracle sc { st with queue := rest }
      else
        let st2 : CrawlState ReqRec := { st with queue := rest, visited := st.visited ++ [url] }
        match hres : requestsScrapePage oracle sc st2 url with
        | (some r, st3) =>
            requestsRunLoop oracle sc
              { st3 with pages := st3.pages ++ [r], trace := st3.trace ++ [Ev.interSleep] }
        | (none, st3) =>
            requestsRunLoop oracle sc { st3 with trace := st3.trace ++ [Ev.interSleep] }
    else st
termination_by ((sc.max_pages - st.pages.length).toNat, st.queue.length)
decreasing_by
  · rw [Prod.lex_def]
    right
    exact ⟨rfl, by simp [hq]⟩
  · rw [Prod.lex_def]
    left
    have h3 : st3.pages = st.pages := by
      have h := requestsScrapePage_pages oracle sc st2 url
      rw [hres] at h
      exact h
    simp only [List.length_append, h3]
    simp only [List.length_cons]
    omega
  · rw [Prod.lex_def]
    right
    have h3 : st3.pages = st.pages := by
      have h := requestsScrapePage_pages oracle sc st2 url
      rw [hres] at h
      exact h
    have hqe : st3.queue = rest := requestsScrapePage_fail_queue oracle sc st2 st3 url hres
    exact ⟨by simp only [h3], by simp only [hqe, hq]; simp⟩

/-! ## The full runs: setup, `try/finally` cleanup and the final report -/

/-- Outcome of `setup_browser`: success, or an exception part-way through
(`browserOpened` records whether `self.browser` had already been assigned
when the exception was raised, which decides whether the `finally` block
closes it). -/
inductive SetupResult where
  | ok
  | failed (browserOpened : Bool)
deriving DecidableEq, Repr

/-- The dict `PlaywrightScraper.run` returns.  The `config` sub-dict is
flattened into the two `config_` fields; the wall-clock `elapsed` value is
not modelled. -/
structure PwReport where
  job_id : String
  status : String
  extraction_mode : String
  pages_count : Nat
  pages : List PageRec
  config_content_types : CtMap
  config_max_pages : Int
deriving DecidableEq, Repr

/-- Observable outcome of one call to `PlaywrightScraper.run`: either the
returned report or a propagated exception (`Except.error`), whether the
`finally` block executed, whether `browser.close()` was called there, and
the log/sleep trace. -/
structure PwRunOutcome where
  result : Except Unit PwReport
  finallyRan : Bool
  browserClosed : Bool
  trace : List Ev
deriving Repr

/-- Model of `PlaywrightScraper.run`.  The `try` block runs `setup_browser`
and then the crawl loop; the `finally` block always executes, closing the
browser exactly when `self.browser` is set.  There is no `except` clause:
when setup raises, the exception propagates out of `run` after the
`finally` block, and the `return` statement — whose `status` is the literal
`'completed'` — is never reached. -/
def playwrightRunFull (setup : SetupResult) (oracle : String → FetchOutcome PwContent)
    (config : Config) : PwRunOutcome :=
  let sc := mkScraperCtx config
  match setup with
  | .failed b =>
      { result := .error (), finallyRan := true, browserClosed := b, trace := [] }
  | .ok =>
      let final := playwrightRunLoop oracle sc (initState PageRec sc.base_url)
      { result := .ok
          { job_id := sc.job_id, status := "completed",
            extraction_mode := sc.extraction_mode,
            pages_count := final.pages.length, pages := final.pages,
            config_content_types := sc.content_types,
            config_max_pages := sc.max_pages },
        finallyRan := true, browserClosed := true,
        trace := Ev.browserInitLog :: final.trace }

/-- The dict `RequestsScraper.run` returns (no `config` echo; `elapsed` not
modelled). -/
structure ReqReport where
  job_id : String
  status : String
  extraction_mode : String
  pages_count : Nat
  pages : List ReqRec
deriving DecidableEq, Repr

/-- Model of `RequestsScraper.run`: no setup and no exception handling —
the loop runs and the report is returned. -/
def requestsRunFull (oracle : String → FetchOutcome ReqContent) (config : Config) :
    ReqReport × List Ev :=
  let sc := mkScraperCtx config
  let final := requestsRunLoop oracle sc (initState ReqRec sc.base_url)
  ({ job_id := sc.job_id, status := "completed",
     extraction_mode := sc.extraction_mode,
     pages_count := final.pages.length, pages := final.pages },
   final.trace)

/-! ## `main`: environment parsing and the output sequence -/

/-- Valid Python integer-literal digit run: nonempty decimal digits with
single underscores allowed between digits. -/
def digitsOk : List Char → Bool
  | [] => false
  | [c] => c.isDigit
  | c :: '_' :: rest => c.isDigit && digitsOk rest
  | c :: rest => c.isDigit && digitsOk rest

/-- Numeric value of a digit run (underscores removed). -/
def digitsVal (cs : List Char) : Nat :=
  (cs.filter (· ≠ '_')).foldl (fun a c => a * 10 + (c.toNat - 48)) 0

/-- Model of Python's `int(s)` on decimal strings: surrounding whitespace
is stripped, an optional sign precedes the digits, and `None` stands for
the `ValueError` raised on anything else. -/
def pyInt (s : String) : Option Int :=
  let cs := s.data.dropWhile Char.isWhitespace
  let cs := (cs.reverse.dropWhile Char.isWhitespace).reverse
  match cs with
  | '+' :: rest => if digitsOk rest then some (digitsVal rest) else none
  | '-' :: rest => if digitsOk rest then some (-(digitsVal rest : Int)) else none
  | rest => if digitsOk rest then some (digitsVal rest) else none

/-- The environment variables `main` reads (`None` = unset). -/
structure Env where
  TARGET_URL : Option String
  JOB_ID : Option String
  EXTRACTION_MODE : Option String
  MAX_PAGES : Option String
  CALLBACK_URL : Option String
  CONTENT_TYPES : Option String

/-- Model of the `CONTENT_TYPES` handling in `main`: the raw value defaults
to the two-character string `"\x7b\x7d"` when the variable is unset, is
handed to `json.loads` (the `jsonParse` collaborator; `none` = any raised
exception), and the bare `except` substitutes the built-in default map. -/
def mainContentTypes (jsonParse : String → Option CtMap) (envVal : Option String) : CtMap :=
  match jsonParse (envVal.getD "\x7b\x7d") with
  | some m => m
  | none => defaultContentTypes

/-- Output lines and externally visible actions of `main`, in order. -/
inductive MainOut where
  | errorLine
  | startingLine (job_id target_url mode : String) (hasPlaywright : Bool)
  | scraperEv (e : Ev)
  | callbackPost
  | callbackFailLine
  | sentinel
  | resultsPw (r : PwReport)
  | resultsReq (r : ReqReport)
deriving DecidableEq, Repr

/-- How the process ends: normal completion (exit 0), the `sys.exit(1)` for
a missing target, an uncaught `ValueError` from `int(MAX_PAGES)`, or an
uncaught setup exception propagating through `asyncio.run`. -/
inductive MainExit where
  | ok
  | exitOne
  | valueError
  | uncaughtSetup
deriving DecidableEq, Repr

/-- Model of `main`: build the config dict (where `int(MAX_PAGES)` can
raise before anything is printed), parse `CONTENT_TYPES`, check
`TARGET_URL` for truthiness, print the starting line, run the strategy
selected by `HAS_PLAYWRIGHT`, deliver the callback when configured
(failures only logged), and print the sentinel plus the report. -/
def mainRun (env : Env) (jsonParse : String → Option CtMap) (hasPlaywright : Bool)
    (setup : SetupResult) (pwOracle : String → FetchOutcome PwContent)
    (reqOracle : String → FetchOutcome ReqContent) (callbackOk : Bool) :
    List MainOut × MainExit :=
  match pyInt ((env.MAX_PAGES).getD "10") with
  | none => ([], .valueError)
  | some mp =>
    let ct := mainContentTypes jsonParse env.CONTENT_TYPES
    match env.TARGET_URL with
    | none => ([.errorLine], .exitOne)
    | some t =>
      if t = "" then ([.errorLine], .exitOne)
      else
        let jid := (env.JOB_ID).getD "unknown"
        let mode := (env.EXTRACTION_MODE).getD "single"
        let config : Config :=
          { target_url := t, job_id := jid, extraction_mode := mode,
            max_pages := some mp, content_types := some ct,
            callback_url := env.CALLBACK_URL }
        let outs0 := [MainOut.startingLine jid t mode hasPlaywright]
        let withCallback : List MainOut → List MainOut := fun outs =>
          match env.CALLBACK_URL with
          | none => outs
          | some "" => outs
          | some _ =>
              if callbackOk then outs ++ [.callbackPost]
              else outs ++ [.callbackPost, .callbackFailLine]
        if hasPlaywright then
          let oc := playwrightRunFull setup pwOracle config
          match oc.result with
          | .error _ => (outs0 ++ oc.trace.map MainOut.scraperEv, .uncaughtSetup)
          | .ok r =>
              (withCallback (outs0 ++ oc.trace.map MainOut.scraperEv) ++
                 [.sentinel, .resultsPw r], .ok)
        else
          let (r, tr) := requestsRunFull reqOracle config
          (withCallback (outs0 ++ tr.map MainOut.scraperEv) ++
             [.sentinel, .resultsReq r], .ok)

/-! ## Claim theorems -/

/-- General fact used for the structured-data count: the number of parse
successes equals the count of parseable scripts. -/
theorem length_filterMap_id {α : Type} (l : List (Option α)) :
    (l.filterMap id).length = l.countP Option.isSome := by
  induction l with
  | nil => rfl
  | cons a as ih => cases a <;> simp [List.countP_cons, ih]

/-- A qualifying image element (nonempty source, rendered width over 50). -/
def img150 : ImgEl :=
  { src := "https://example.com/i.png", alt := "hero", naturalWidth := 200,
    naturalHeight := 100 }

/-- A page carrying 150 qualifying images and nothing else. -/
def dom150 : Dom := { emptyDom with images := List.replicate 150 img150 }

set_option maxRecDepth 4000 in
/-- C6: for every enabled extractor the reported count is the exact total
of items matched in the document — counted before the sample is truncated
to its cap — and the sample is the cap-length prefix of the matched items;
concretely, a page with 150 qualifying images under the default toggles
reports `images_count = 150` with a sample of exactly 100 descriptors. -/
theorem c6_extractor_counts_exact :
    (∀ (ct : CtMap) (dom : Dom) (url : String),
      ((extract_content ct dom url).text =
          (if ctGet ct "text" true then some (strTake dom.bodyTextCleaned 100000) else none)) ∧
      ((extract_content ct dom url).text_length =
          (if ctGet ct "text" true then some dom.bodyTextCleaned.length else none)) ∧
      ((extract_content ct dom url).images =
          (if ctGet ct "images" true then some ((matchedImages dom).take 100) else none)) ∧
      ((extract_content ct dom url).images_count =
          (if ctGet ct "images" true then some (matchedImages dom).length else none)) ∧
      ((extract_content ct dom url).code_blocks =
          (if ctGet ct "code" true then some ((matchedCodeBlocks dom).take 50) else none)) ∧
      ((extract_content ct dom url).code_count =
          (if ctGet ct "code" true then some (matchedCodeBlocks dom).length else none)) ∧
      ((extract_content ct dom url).links =
          (if ctGet ct "links" false then some ((matchedLinks dom).take 500) else none)) ∧
      ((extract_content ct dom url).links_count =
          (if ctGet ct "links" false then some (matchedLinks dom).length else none)) ∧
      ((extract_content ct dom url).json_ld =
          (if ctGet ct "json" true then some (parsedLdBlocks dom) else none)) ∧
      ((extract_content ct dom url).json_count =
          (if ctGet ct "json" true then some (parsedLdBlocks dom).length else none)) ∧
      ((extract_content ct dom url).tables =
          (if ctGet ct "tables" true then some ((tableDescs dom).take 20) else none)) ∧
      ((extract_content ct dom url).tables_count =
          (if ctGet ct "tables" true then some (tableDescs dom).length else none)) ∧
      ((extract_content ct dom url).media =
          (if ctGet ct "media" true then some ((mediaDescs dom).take 50) else none)) ∧
      ((extract_content ct dom url).media_count =
          (if ctGet ct "media" true then some (mediaDescs dom).length else none)) ∧
      ((extract_content ct dom url).files =
          (if ctGet ct "files" false then some ((matchedFiles dom).take 100) else none)) ∧
      ((extract_content ct dom url).files_count =
          (if ctGet ct "files" false then some (matchedFiles dom).length else none))) ∧
    (∀ dom : Dom,
      ((matchedImages dom).length =
          dom.images.countP fun img => img.src ≠ "" && img.naturalWidth > 50) ∧
      ((matchedCodeBlocks dom).length =
          dom.codeEls.countP fun el => el.innerTextTrimmed.length > 10) ∧
      ((matchedLinks dom).length =
          dom.anchors.countP fun a => a.href.startsWith "http") ∧
      ((parsedLdBlocks dom).length = dom.ldScripts.countP Option.isSome) ∧
      ((tableDescs dom).length = dom.tables.length) ∧
      ((mediaDescs dom).length = dom.mediaEls.length) ∧
      ((matchedFiles dom).length =
          dom.anchors.countP fun a =>
            fileExtensions.any fun ext => a.href.toLower.endsWith ext)) ∧
    ((extract_content [] dom150 "https://example.com/").images_count = some 150 ∧
      (((extract_content [] dom150 "https://example.com/").images.getD []).length = 100)) := by
  refine ⟨fun ct dom url => ?_, fun dom => ?_, by decide⟩
  · exact ⟨rfl, rfl, rfl, rfl, rfl, rfl, rfl, rfl, rfl, rfl, rfl, rfl, rfl, rfl, rfl, rfl⟩
  · refine ⟨?_, ?_, ?_, length_filterMap_id dom.ldScripts, List.length_map _ _,
      List.length_map _ _, ?_⟩
    · rw [matchedImages, ← List.countP_eq_length_filter, List.countP_map]
      rfl
    · rw [matchedCodeBlocks, List.length_map, ← List.countP_eq_length_filter]
    · rw [matchedLinks, ← List.countP_eq_length_filter, List.countP_map]
      rfl
    · rw [matchedFiles, List.length_map, ← List.countP_eq_length_filter]

/-- C8: when `CONTENT_TYPES` is unset (so `json.loads` sees `"\x7b\x7d"`
and yields the empty dict) or contains invalid JSON (`json.loads` raises),
the effective extractor toggles are the built-in default — the extraction
pipeline behaves exactly as under the default map, with text, images,
code, json, tables and media enabled and links and files disabled. -/
theorem c8_content_types_default (jsonParse : String → Option CtMap) (envVal : Option String)
    (h : (envVal = none ∧ jsonParse "\x7b\x7d" = some []) ∨
         (∃ s, envVal = some s ∧ jsonParse s = none)) :
    (∀ (dom : Dom) (url : String),
      extract_content (mainContentTypes jsonParse envVal) dom url =
        extract_content defaultContentTypes dom url) ∧
    ctGet (mainContentTypes jsonParse envVal) "text" true = true ∧
    ctGet (mainContentTypes jsonParse envVal) "images" true = true ∧
    ctGet (mainContentTypes jsonParse envVal) "code" true = true ∧
    ctGet (mainContentTypes jsonParse envVal) "links" false = false ∧
    ctGet (mainContentTypes jsonParse envVal) "json" true = true ∧
    ctGet (mainContentTypes jsonParse envVal) "tables" true = true ∧
    ctGet (mainContentTypes jsonParse envVal) "media" true = true ∧
    ctGet (mainContentTypes jsonParse envVal) "files" false = false := by
  have hm : mainContentTypes jsonParse envVal = [] ∨
      mainContentTypes jsonParse envVal = defaultContentTypes := by
    rcases h with ⟨he, hp⟩ | ⟨s, he, hp⟩ <;> rw [mainContentTypes, he] <;> simp [hp]
  rcases hm with hm | hm <;> rw [hm] <;>
    exact ⟨fun dom url => rfl, rfl, rfl, rfl, rfl, rfl, rfl, rfl, rfl⟩

/-- Witness for C8 at a concrete parse collaborator (accepting only the
empty-object text) with the variable unset. -/
theorem c8_content_types_default_witness :
    extract_content
        (mainContentTypes (fun s => if s = "\x7b\x7d" then some [] else none) none)
        emptyDom "https://example.com/" =
      extract_content defaultContentTypes emptyDom "https://example.com/" ∧
    ctGet (mainContentTypes (fun s => if s = "\x7b\x7d" then some [] else none) none)
        "links" false = false := by
  have h := c8_content_types_default
    (fun s => if s = "\x7b\x7d" then some [] else none) none (Or.inl ⟨rfl, rfl⟩)
  exact ⟨h.1 emptyDom "https://example.com/", h.2.2.2.2.1⟩

/-- C9: when `MAX_PAGES` holds a string that is not a valid integer
literal, `int()` raises an uncaught `ValueError` while the config dict is
being built — before any output line is printed, any fetch is attempted or
any report is produced. -/
theorem c9_invalid_max_pages_fatal (env : Env) (jsonParse : String → Option CtMap)
    (hasPlaywright : Bool) (setup : SetupResult)
    (pwOracle : String → FetchOutcome PwContent)
    (reqOracle : String → FetchOutcome ReqContent) (callbackOk : Bool)
    (h : pyInt ((env.MAX_PAGES).getD "10") = none) :
    mainRun env jsonParse hasPlaywright setup pwOracle reqOracle callbackOk =
      ([], MainExit.valueError) := by
  unfold mainRun
  rw [h]

/-- Witness for C9 with `MAX_PAGES="abc"` and every other collaborator
concrete. -/
theorem c9_invalid_max_pages_fatal_witness :
    pyInt "abc" = none ∧
    mainRun
        { TARGET_URL := some "https://example.com/", JOB_ID := none,
          EXTRACTION_MODE := none, MAX_PAGES := some "abc",
          CALLBACK_URL := none, CONTENT_TYPES := none }
        (fun _ => some []) true SetupResult.ok
        (fun _ => FetchOutcome.netError) (fun _ => FetchOutcome.netError) true =
      ([], MainExit.valueError) :=
  ⟨rfl, c9_invalid_max_pages_fatal _ _ _ _ _ _ _ rfl⟩

/-- C2 counterexample: with setup failing before the browser was assigned,
`run` does not produce any report — its observable result is the
propagated exception, not a `CrawlReport` with `status = 'error'`. -/
theorem c2_setup_error_counterexample :
    (playwrightRunFull (SetupResult.failed false) (fun _ => FetchOutcome.netError)
        { target_url := "https://example.com/", job_id := "j",
          extraction_mode := "single", max_pages := some 10,
          content_types := some [], callback_url := none }).result =
      Except.error () := rfl

/-- C2 (amended): when browser session setup fails, the `finally` cleanup
still runs (closing the browser exactly when it had been opened), but no
`CrawlReport` is produced at all: the exception propagates out of `run`,
and the only report status the code can emit is `'completed'`, on the
success path. -/
theorem c2_setup_failure_behavior (setup : SetupResult)
    (oracle : String → FetchOutcome PwContent) (config : Config) :
    (playwrightRunFull setup oracle config).finallyRan = true ∧
    (playwrightRunFull setup oracle config).browserClosed =
      (match setup with | .ok => true | .failed b => b) ∧
    (playwrightRunFull setup oracle config).result.toOption.map (fun r => r.status) =
      (match setup with | .ok => some "completed" | .failed _ => none) := by
  cases setup <;> exact ⟨rfl, rfl, rfl⟩

/-- C3 counterexample: the Requests-strategy enqueue appends a link that is
already in the pending queue (it checks only the visited set), so the
enqueue is not a no-op and the queue ends up holding the URL twice. -/
theorem c3_enqueue_counterexample :
    (requestsHandleHref "example.com" "https://example.com/"
        (α := ReqRec)
        { visited := ["https://example.com/"], queue := ["https://example.com/a"],
          pages := [], trace := [] }
        "https://example.com/a").queue =
      ["https://example.com/a", "https://example.com/a"] := by decide

/-- C3 (amended): the Playwright-strategy enqueue is a no-op whenever the
link is already visited or already pending, so that strategy enqueues every
URL at most once before it is visited; the Requests-strategy enqueue checks
only the visited set, so an in-scope unvisited link is appended even when
it is already in the pending queue. -/
theorem c3_enqueue_dedup :
    (∀ (α : Type) (st : CrawlState α) (l : String), l ∈ st.visited ∨ l ∈ st.queue →
      playwrightHandleLink st l = st) ∧
    (∀ (α : Type) (domain base href : String) (st : CrawlState α),
      netlocOf (urljoin base href) = domain → urljoin base href ∉ st.visited →
      (requestsHandleHref domain base st href).queue = st.queue ++ [urljoin base href]) := by
  constructor
  · intro α st l h
    rw [playwrightHandleLink, if_neg]
    intro ⟨h1, h2⟩
    rcases h with h | h
    · exact h1 h
    · exact h2 h
  · intro α domain base href st h1 h2
    rw [requestsHandleHref]
    rw [if_pos ⟨h1, h2⟩]

/-- Witness for C3's amended statement: a visited link is not re-enqueued
by the Playwright handler, and the Requests handler duplicates a link that
is already pending. -/
theorem c3_enqueue_dedup_witness :
    playwrightHandleLink (α := ReqRec)
        { visited := ["https://example.com/a"], queue := [], pages := [], trace := [] }
        "https://example.com/a" =
      { visited := ["https://example.com/a"], queue := [], pages := [], trace := [] } ∧
    (requestsHandleHref "example.com" "https://example.com/"
        (α := ReqRec)
        { visited := [], queue := ["https://example.com/a"], pages := [], trace := [] }
        "https://example.com/a").queue =
      ["https://example.com/a", "https://example.com/a"] := by
  constructor
  · exact c3_enqueue_dedup.1 ReqRec _ _ (Or.inl (by decide))
  · rw [c3_enqueue_dedup.2 ReqRec "example.com" "https://example.com/"
      "https://example.com/a" _ (by decide) (by decide)]
    decide

/-- C4 counterexample: from seed `https://example.com/` (already visited),
a discovered bare-fragment href `#frag` is not rejected: it resolves to
`https://example.com/#frag`, which is in scope and unvisited, and is
enqueued with its fragment intact. -/
theorem c4_fragment_counterexample :
    (requestsHandleHref "example.com" "https://example.com/"
        (α := ReqRec)
        { visited := ["https://example.com/"], queue := [], pages := [], trace := [] }
        "#frag").queue = ["https://example.com/#frag"] := by decide

/-- The string `"#" ++ frag` is never empty. -/
theorem hash_append_ne_empty (frag : String) : ("#" ++ frag) ≠ "" := by
  intro h
  have : ("#" ++ frag).data = [] := by rw [h]
  rw [String.data_append] at this
  exact absurd this (by simp [String.data])

/-- The string `"#" ++ frag` carries no URL scheme. -/
theorem hasScheme_hash_append (frag : String) : hasScheme ("#" ++ frag) = false := by
  rw [hasScheme, String.data_append]
  show (splitScheme ('#' :: frag.data)).isSome = false
  rw [splitScheme]
  simp only [List.takeWhile_cons, List.dropWhile_cons]
  norm_num
  split
  · rfl
  · rfl

/-- C4 (amended): the code contains no URL normalizer — bare-fragment
hrefs are not rejected and fragments are not stripped.  A href
`#<fragment>` resolves to the page URL (its own fragment dropped, per
`urljoin`) with the new fragment appended, and the Requests strategy
enqueues that fragment-bearing URL whenever its netloc matches the scope
domain and it is not in the visited set; hrefs that already carry a scheme
are taken verbatim, so query strings (and fragments) pass through
unchanged. -/
theorem c4_no_fragment_normalization :
    (∀ (base frag : String), base ≠ "" →
      urljoin base ("#" ++ frag) = defragUrl base ++ ("#" ++ frag)) ∧
    (∀ (α : Type) (domain base frag : String) (st : CrawlState α), base ≠ "" →
      netlocOf (defragUrl base ++ ("#" ++ frag)) = domain →
      defragUrl base ++ ("#" ++ frag) ∉ st.visited →
      (requestsHandleHref domain base st ("#" ++ frag)).queue =
        st.queue ++ [defragUrl base ++ ("#" ++ frag)]) ∧
    (∀ (base href : String), href ≠ "" → base ≠ "" → hasScheme href = true →
      urljoin base href = href) := by
  have hjoin : ∀ (base frag : String), base ≠ "" →
      urljoin base ("#" ++ frag) = defragUrl base ++ ("#" ++ frag) := by
    intro base frag hb
    rw [urljoin, if_neg (hash_append_ne_empty frag), if_neg hb]
    have hs : hasScheme ("#" ++ frag) = false := hasScheme_hash_append frag
    rw [hs]
    show (match ("#" ++ frag).data with
      | '/' :: '/' :: _ => schemeOf base ++ ":" ++ ("#" ++ frag)
      | '#' :: _ => defragUrl base ++ ("#" ++ frag)
      | '?' :: _ => stripQueryFrag base ++ ("#" ++ frag)
      | '/' :: _ => schemeNetloc base ++ ("#" ++ frag)
      | _ => dirOf base ++ ("#" ++ frag)) = defragUrl base ++ ("#" ++ frag)
    rw [String.data_append]
    rfl
  refine ⟨hjoin, ?_, ?_⟩
  · intro α domain base frag st hb h1 h2
    rw [requestsHandleHref]
    rw [hjoin base frag hb] at *
    rw [if_pos ⟨h1, h2⟩]
  · intro base href hu hb hs
    rw [urljoin, if_neg hu, if_neg hb, hs]
    rfl

/-- Witness for C4's amended statement at the seed `https://example.com/`
with fragment `frag` and an absolute href carrying a query string. -/
theorem c4_no_fragment_normalization_witness :
    urljoin "https://example.com/" "#frag" = "https://example.com/#frag" ∧
    (requestsHandleHref "example.com" "https://example.com/"
        (α := ReqRec)
        { visited := ["https://example.com/"], queue := [], pages := [], trace := [] }
        "#frag").queue = ["https://example.com/#frag"] ∧
    urljoin "https://example.com/" "https://example.com/p?q=1" =
      "https://example.com/p?q=1" := by
  refine ⟨?_, ?_, ?_⟩
  · show urljoin "https://example.com/" ("#" ++ "frag") = "https://example.com/#frag"
    have h := c4_no_fragment_normalization.1 "https://example.com/" "frag" (by decide)
    rw [h]
    decide
  · show (requestsHandleHref "example.com" "https://example.com/"
        (α := ReqRec)
        { visited := ["https://example.com/"], queue := [], pages := [], trace := [] }
        ("#" ++ "frag")).queue = ["https://example.com/#frag"]
    have h := c4_no_fragment_normalization.2.1 ReqRec "example.com"
      "https://example.com/" "frag"
      { visited := ["https://example.com/"], queue := [], pages := [], trace := [] }
      (by decide) (by decide) (by decide)
    rw [h]
    decide
  · exact c4_no_fragment_normalization.2.2 "https://example.com/"
      "https://example.com/p?q=1" (by decide) (by decide) (by decide)

/-- Unfolding: the Playwright loop with an empty queue returns the state. -/
theorem playwrightRunLoop_eq_empty (oracle : String → FetchOutcome PwContent)
    (sc : ScraperCtx) (st : CrawlState PageRec) (hq : st.queue = []) :
    playwrightRunLoop oracle sc st = st := by
  conv_lhs => rw [playwrightRunLoop]
  split
  · rfl
  · rename_i url' rest' hq'
    rw [hq] at hq'
    cases hq'

/-- Unfolding: the Playwright loop stops when the page budget is spent. -/
theorem playwrightRunLoop_eq_budget (oracle : String → FetchOutcome PwContent)
    (sc : ScraperCtx) (st : CrawlState PageRec) (u : String) (rest : List String)
    (hq : st.queue = u :: rest) (hb : ¬ (st.pages.length : Int) < sc.max_pages) :
    playwrightRunLoop oracle sc st = st := by
  conv_lhs => rw [playwrightRunLoop]
  split
  · rfl
  · rw [dif_neg hb]

/-- Unfolding: the Playwright loop silently skips an already-visited head. -/
theorem playwrightRunLoop_eq_skip (oracle : String → FetchOutcome PwContent)
    (sc : ScraperCtx) (st : CrawlState PageRec) (u : String) (rest : List String)
    (hq : st.queue = u :: rest) (hb : (st.pages.length : Int) < sc.max_pages)
    (hv : u ∈ st.visited) :
    playwrightRunLoop oracle sc st = playwrightRunLoop oracle sc { st with queue := rest } := by
  conv_lhs => rw [playwrightRunLoop]
  split
  · simp_all
  · rename_i url' rest' hq'
    rw [hq] at hq'
    obtain ⟨rfl, rfl⟩ : u = url' ∧ rest = rest' :=
      ⟨(List.cons.injEq _ _ _ _ ▸ hq').1, (List.cons.injEq _ _ _ _ ▸ hq').2⟩
    rw [dif_pos hb, if_pos hv]

/-- Unfolding: one successful iteration of the Playwright loop. -/
theorem playwrightRunLoop_eq_succ (oracle : String → FetchOutcome PwContent)
    (sc : ScraperCtx) (st st3 : CrawlState PageRec) (u : String) (rest : List String)
    (r : PageRec)
    (hq : st.queue = u :: rest) (hb : (st.pages.length : Int) < sc.max_pages)
    (hv : u ∉ st.visited)
    (hres : playwrightScrapePage oracle sc
        { st with queue := rest, visited := st.visited ++ [u] } u = (some r, st3)) :
    playwrightRunLoop oracle sc st =
      playwrightRunLoop oracle sc (pwDelay sc { st3 with pages := st3.pages ++ [r] }) := by
  conv_lhs => rw [playwrightRunLoop]
  split
  · simp_all
  · rename_i url' rest' hq'
    rw [hq] at hq'
    obtain ⟨rfl, rfl⟩ : u = url' ∧ rest = rest' :=
      ⟨(List.cons.injEq _ _ _ _ ▸ hq').1, (List.cons.injEq _ _ _ _ ▸ hq').2⟩
    rw [dif_pos hb, if_neg hv]
    dsimp only
    split
    · rename_i r' st3' hres'
      rw [hres] at hres'
      simp only [Prod.mk.injEq, Option.some.injEq] at hres'
      obtain ⟨rfl, rfl⟩ : r = r' ∧ st3 = st3' := ⟨hres'.1, hres'.2⟩
      rfl
    · rename_i st3' hres'
      rw [hres] at hres'
      simp at hres'

/-- Unfolding: the Requests loop with an empty queue returns the state. -/
theorem requestsRunLoop_eq_empty (oracle : String → FetchOutcome ReqContent)
    (sc : ScraperCtx) (st : CrawlState ReqRec) (hq : st.queue = []) :
    requestsRunLoop oracle sc st = st := by
  conv_lhs => rw [requestsRunLoop]
  split
  · rfl
  · rename_i url' rest' hq'
    rw [hq] at hq'
    cases hq'

/-- Unfolding: the Requests loop stops when the page budget is spent. -/
theorem requestsRunLoop_eq_budget (oracle : String → FetchOutcome ReqContent)
    (sc : ScraperCtx) (st : CrawlState ReqRec) (u : String) (rest : List String)
    (hq : st.queue = u :: rest) (hb : ¬ (st.pages.length : Int) < sc.max_pages) :
    requestsRunLoop oracle sc st = st := by
  conv_lhs => rw [requestsRunLoop]
  split
  · rfl
  · rw [dif_neg hb]

/-- Unfolding: the Requests loop silently skips an already-visited head. -/
theorem requestsRunLoop_eq_skip (oracle : String → FetchOutcome ReqContent)
    (sc : ScraperCtx) (st : CrawlState ReqRec) (u : String) (rest : List String)
    (hq : st.queue = u :: rest) (hb : (st.pages.length : Int) < sc.max_pages)
    (hv : u ∈ st.visited) :
    requestsRunLoop oracle sc st = requestsRunLoop oracle sc { st with queue := rest } := by
  conv_lhs => rw [requestsRunLoop]
  split
  · simp_all
  · rename_i url' rest' hq'
    rw [hq] at hq'
    obtain ⟨rfl, rfl⟩ : u = url' ∧ rest = rest' :=
      ⟨(List.cons.injEq _ _ _ _ ▸ hq').1, (List.cons.injEq _ _ _ _ ▸ hq').2⟩
    rw [dif_pos hb, if_pos hv]

/-- Unfolding: one successful iteration of the Requests loop (record
appended, then the unconditional sleep). -/
theorem requestsRunLoop_eq_succ (oracle : String → FetchOutcome ReqContent)
    (sc : ScraperCtx) (st st3 : CrawlState ReqRec) (u : String) (rest : List String)
    (r : ReqRec)
    (hq : st.queue = u :: rest) (hb : (st.pages.length : Int) < sc.max_pages)
    (hv : u ∉ st.visited)
    (hres : requestsScrapePage oracle sc
        { st with queue := rest, visited := st.visited ++ [u] } u = (some r, st3)) :
    requestsRunLoop oracle sc st =
      requestsRunLoop oracle sc
        { st3 with pages := st3.pages ++ [r], trace := st3.trace ++ [Ev.interSleep] } := by
  conv_lhs => rw [requestsRunLoop]
  split
  · simp_all
  · rename_i url' rest' hq'
    rw [hq] at hq'
    obtain ⟨rfl, rfl⟩ : u = url' ∧ rest = rest' :=
      ⟨(List.cons.injEq _ _ _ _ ▸ hq').1, (List.cons.injEq _ _ _ _ ▸ hq').2⟩
    rw [dif_pos hb, if_neg hv]
    dsimp only
    split
    · rename_i r' st3' hres'
      rw [hres] at hres'
      simp only [Prod.mk.injEq, Option.some.injEq] at hres'
      obtain ⟨rfl, rfl⟩ : r = r' ∧ st3 = st3' := ⟨hres'.1, hres'.2⟩
      rfl
    · rename_i st3' hres'
      rw [hres] at hres'
      simp at hres'

/-- One iteration of the Playwright loop over a URL whose fetch fails:
the loop goes on with the rest of the queue. -/
theorem playwrightRunLoop_fail_step (oracle : String → FetchOutcome PwContent)
    (sc : ScraperCtx) (st st3 : CrawlState PageRec) (u : String) (rest : List String)
    (hq : st.queue = u :: rest) (hb : (st.pages.length : Int) < sc.max_pages)
    (hv : u ∉ st.visited)
    (hres : playwrightScrapePage oracle sc
        { st with queue := rest, visited := st.visited ++ [u] } u = (none, st3)) :
    playwrightRunLoop oracle sc st = playwrightRunLoop oracle sc (pwDelay sc st3) := by
  conv_lhs => rw [playwrightRunLoop]
  split
  · simp_all
  · rename_i url' rest' hq'
    rw [hq] at hq'
    obtain ⟨rfl, rfl⟩ : u = url' ∧ rest = rest' :=
      ⟨(List.cons.injEq _ _ _ _ ▸ hq').1, (List.cons.injEq _ _ _ _ ▸ hq').2⟩
    rw [dif_pos hb, if_neg hv]
    dsimp only
    split
    · rename_i r st3x hresx
      rw [hres] at hresx
      simp at hresx
    · rename_i st3x hresx
      rw [hres] at hresx
      simp only [Prod.mk.injEq] at hresx
      rw [hresx.2]

/-- One iteration of the Requests loop over a URL whose fetch fails: the
loop sleeps and goes on with the rest of the queue. -/
theorem requestsRunLoop_fail_step (oracle : String → FetchOutcome ReqContent)
    (sc : ScraperCtx) (st st3 : CrawlState ReqRec) (u : String) (rest : List String)
    (hq : st.queue = u :: rest) (hb : (st.pages.length : Int) < sc.max_pages)
    (hv : u ∉ st.visited)
    (hres : requestsScrapePage oracle sc
        { st with queue := rest, visited := st.visited ++ [u] } u = (none, st3)) :
    requestsRunLoop oracle sc st =
      requestsRunLoop oracle sc { st3 with trace := st3.trace ++ [Ev.interSleep] } := by
  conv_lhs => rw [requestsRunLoop]
  split
  · simp_all
  · rename_i url' rest' hq'
    rw [hq] at hq'
    obtain ⟨rfl, rfl⟩ : u = url' ∧ rest = rest' :=
      ⟨(List.cons.injEq _ _ _ _ ▸ hq').1, (List.cons.injEq _ _ _ _ ▸ hq').2⟩
    rw [dif_pos hb, if_neg hv]
    dsimp only
    split
    · rename_i r st3x hresx
      rw [hres] at hresx
      simp at hresx
    · rename_i st3x hresx
      rw [hres] at hresx
      simp only [Prod.mk.injEq] at hresx
      rw [hresx.2]

/-- C1 (amended): network errors and timeouts raised by the fetch are
caught and surfaced as the typed `None` result in both strategies, leaving
visited set, queue and pages untouched (only the error log is emitted);
the run loop then continues with the remaining queue without appending a
record.  Non-2xx HTTP responses, however, are not failures: neither
strategy inspects the status code, and the response body is extracted and
returned as a page record like any other. -/
theorem c1_fetch_failure_handling :
    (∀ (oracle : String → FetchOutcome PwContent) (sc : ScraperCtx)
        (st : CrawlState PageRec) (url : String),
      oracle url = FetchOutcome.netError ∨ oracle url = FetchOutcome.timeout →
      (playwrightScrapePage oracle sc st url).1 = none ∧
      (playwrightScrapePage oracle sc st url).2 =
        { st with trace := st.trace ++ [Ev.scrapingLog url] ++ [Ev.errorLog url] }) ∧
    (∀ (oracle : String → FetchOutcome ReqContent) (sc : ScraperCtx)
        (st : CrawlState ReqRec) (url : String),
      oracle url = FetchOutcome.netError ∨ oracle url = FetchOutcome.timeout →
      (requestsScrapePage oracle sc st url).1 = none ∧
      (requestsScrapePage oracle sc st url).2 =
        { st with trace := st.trace ++ [Ev.scrapingLog url] ++ [Ev.errorLog url] }) ∧
    (∀ (oracle : String → FetchOutcome PwContent) (sc : ScraperCtx)
        (st : CrawlState PageRec) (u : String) (rest : List String),
      st.queue = u :: rest → (st.pages.length : Int) < sc.max_pages →
      u ∉ st.visited →
      (oracle u = FetchOutcome.netError ∨ oracle u = FetchOutcome.timeout) →
      ∃ st3 : CrawlState PageRec,
        st3.pages = st.pages ∧ st3.queue = rest ∧
        playwrightRunLoop oracle sc st = playwrightRunLoop oracle sc (pwDelay sc st3)) ∧
    (∀ (oracle : String → FetchOutcome ReqContent) (sc : ScraperCtx)
        (st : CrawlState ReqRec) (u : String) (rest : List String),
      st.queue = u :: rest → (st.pages.length : Int) < sc.max_pages →
      u ∉ st.visited →
      (oracle u = FetchOutcome.netError ∨ oracle u = FetchOutcome.timeout) →
      ∃ st3 : CrawlState ReqRec,
        st3.pages = st.pages ∧ st3.queue = rest ∧
        requestsRunLoop oracle sc st =
          requestsRunLoop oracle sc { st3 with trace := st3.trace ++ [Ev.interSleep] }) ∧
    (∀ (oracle : String → FetchOutcome PwContent) (sc : ScraperCtx)
        (st : CrawlState PageRec) (url : String) (s : Int) (c : PwContent),
      oracle url = FetchOutcome.response s c →
      (playwrightScrapePage oracle sc st url).1 =
        some (extract_content sc.content_types c.dom url)) ∧
    (∀ (oracle : String → FetchOutcome ReqContent) (sc : ScraperCtx)
        (st : CrawlState ReqRec) (url : String) (s : Int) (c : ReqContent),
      oracle url = FetchOutcome.response s c →
      (requestsScrapePage oracle sc st url).1 =
        some { url := url, title := c.title, text := strTake c.text 100000,
               text_length := c.text.length }) := by
  have hpw : ∀ (oracle : String → FetchOutcome PwContent) (sc : ScraperCtx)
      (st : CrawlState PageRec) (url : String),
      oracle url = FetchOutcome.netError ∨ oracle url = FetchOutcome.timeout →
      (playwrightScrapePage oracle sc st url).1 = none ∧
      (playwrightScrapePage oracle sc st url).2 =
        { st with trace := st.trace ++ [Ev.scrapingLog url] ++ [Ev.errorLog url] } := by
    intro oracle sc st url h
    rcases h with h | h <;> rw [playwrightScrapePage, h] <;> exact ⟨rfl, rfl⟩
  have hrq : ∀ (oracle : String → FetchOutcome ReqContent) (sc : ScraperCtx)
      (st : CrawlState ReqRec) (url : String),
      oracle url = FetchOutcome.netError ∨ oracle url = FetchOutcome.timeout →
      (requestsScrapePage oracle sc st url).1 = none ∧
      (requestsScrapePage oracle sc st url).2 =
        { st with trace := st.trace ++ [Ev.scrapingLog url] ++ [Ev.errorLog url] } := by
    intro oracle sc st url h
    rcases h with h | h <;> rw [requestsScrapePage, h] <;> exact ⟨rfl, rfl⟩
  refine ⟨hpw, hrq, ?_, ?_, ?_, ?_⟩
  · intro oracle sc st u rest hq hb hv h
    set st2 : CrawlState PageRec :=
      { st with queue := rest, visited := st.visited ++ [u] } with hst2
    have hfail := hpw oracle sc st2 u h
    have hres : playwrightScrapePage oracle sc st2 u =
        (none, (playwrightScrapePage oracle sc st2 u).2) := by
      rw [← hfail.1]
    refine ⟨(playwrightScrapePage oracle sc st2 u).2, ?_, ?_, ?_⟩
    · rw [hfail.2]
    · rw [hfail.2]
    · exact playwrightRunLoop_fail_step oracle sc st _ u rest hq hb hv hres
  · intro oracle sc st u rest hq hb hv h
    set st2 : CrawlState ReqRec :=
      { st with queue := rest, visited := st.visited ++ [u] } with hst2
    have hfail := hrq oracle sc st2 u h
    have hres : requestsScrapePage oracle sc st2 u =
        (none, (requestsScrapePage oracle sc st2 u).2) := by
      rw [← hfail.1]
    refine ⟨(requestsScrapePage oracle sc st2 u).2, ?_, ?_, ?_⟩
    · rw [hfail.2]
    · rw [hfail.2]
    · exact requestsRunLoop_fail_step oracle sc st _ u rest hq hb hv hres
  · intro oracle sc st url s c h
    rw [playwrightScrapePage, h]
  · intro oracle sc st url s c h
    rw [requestsScrapePage, h]

/-- A single-mode configuration for the concrete runs below. -/
def cfgSingle : Config :=
  { target_url := "https://example.com/", job_id := "j",
    extraction_mode := "single", max_pages := some 10,
    content_types := some [], callback_url := none }

/-- A web where every URL answers `404 Not Found` (browser strategy view:
navigation succeeds, the rendered error page is empty). -/
def oracle404 : String → FetchOutcome PwContent :=
  fun _ => FetchOutcome.response 404 { dom := emptyDom, links := [] }

/-- The same 404-only web as the plain-HTTP strategy sees it. -/
def oracle404req : String → FetchOutcome ReqContent :=
  fun _ => FetchOutcome.response 404 { title := "Not Found", text := "nope", hrefs := [] }

/-- C1 counterexample: a 404 response is not skipped by either strategy —
the run over a web that always answers 404 records the page, so a non-2xx
status does not surface as a failure and the PageRecord is appended. -/
theorem c1_non2xx_counterexample :
    ((playwrightRunLoop oracle404 (mkScraperCtx cfgSingle)
        (initState PageRec "https://example.com/")).pages.map fun r => r.url) =
      ["https://example.com/"] ∧
    ((requestsRunLoop oracle404req (mkScraperCtx cfgSingle)
        (initState ReqRec "https://example.com/")).pages.map fun r => r.url) =
      ["https://example.com/"] := by
  constructor
  · simp [playwrightRunLoop, playwrightScrapePage, oracle404, mkScraperCtx, cfgSingle,
      initState, pwDelay, extract_content]
  · simp [requestsRunLoop, requestsScrapePage, oracle404req, mkScraperCtx, cfgSingle,
      initState]

/-- Witness for C1's amended statement on a web that always raises a
network error: the scrape returns the typed `None` in both strategies, and
from the seed state each loop continues past the failed page with its
pages untouched. -/
theorem c1_fetch_failure_handling_witness :
    (playwrightScrapePage (fun _ => FetchOutcome.netError) (mkScraperCtx cfgSingle)
        (initState PageRec "https://example.com/") "https://example.com/").1 = none ∧
    (requestsScrapePage (fun _ => FetchOutcome.netError) (mkScraperCtx cfgSingle)
        (initState ReqRec "https://example.com/") "https://example.com/").1 = none ∧
    (∃ st3 : CrawlState PageRec,
      st3.pages = (initState PageRec "https://example.com/").pages ∧ st3.queue = [] ∧
      playwrightRunLoop (fun _ => FetchOutcome.netError) (mkScraperCtx cfgSingle)
          (initState PageRec "https://example.com/") =
        playwrightRunLoop (fun _ => FetchOutcome.netError) (mkScraperCtx cfgSingle)
          (pwDelay (mkScraperCtx cfgSingle) st3)) ∧
    (∃ st3 : CrawlState ReqRec,
      st3.pages = (initState ReqRec "https://example.com/").pages ∧ st3.queue = [] ∧
      requestsRunLoop (fun _ => FetchOutcome.netError) (mkScraperCtx cfgSingle)
          (initState ReqRec "https://example.com/") =
        requestsRunLoop (fun _ => FetchOutcome.netError) (mkScraperCtx cfgSingle)
          { st3 with trace := st3.trace ++ [Ev.interSleep] }) ∧
    (playwrightScrapePage oracle404 (mkScraperCtx cfgSingle)
        (initState PageRec "https://example.com/") "https://example.com/").1 =
      some (extract_content (mkScraperCtx cfgSingle).content_types emptyDom
        "https://example.com/") := by
  refine ⟨(c1_fetch_failure_handling.1 _ _ _ _ (Or.inl rfl)).1,
    (c1_fetch_failure_handling.2.1 _ _ _ _ (Or.inl rfl)).1,
    c1_fetch_failure_handling.2.2.1 _ (mkScraperCtx cfgSingle) _ "https://example.com/" []
      rfl (by decide) (by decide) (Or.inl rfl),
    c1_fetch_failure_handling.2.2.2.1 _ (mkScraperCtx cfgSingle) _ "https://example.com/" []
      rfl (by decide) (by decide) (Or.inl rfl),
    c1_fetch_failure_handling.2.2.2.2.1 oracle404 _ _ _ 404
      { dom := emptyDom, links := [] } rfl⟩

/-- The Playwright loop never grows the page list beyond the budget. -/
theorem playwrightRunLoop_budget (oracle : String → FetchOutcome PwContent)
    (sc : ScraperCtx) (st : CrawlState PageRec)
    (h : st.pages.length ≤ sc.max_pages.toNat) :
    (playwrightRunLoop oracle sc st).pages.length ≤ sc.max_pages.toNat := by
  induction st using playwrightRunLoop.induct oracle sc with
  | case1 st hq => rwa [playwrightRunLoop_eq_empty oracle sc st hq]
  | case2 st url rest hq hb hv ih =>
      rw [playwrightRunLoop_eq_skip oracle sc st url rest hq hb hv]
      exact ih h
  | case3 st url rest hq hb hv st2 r st3 hres ih =>
      rw [playwrightRunLoop_eq_succ oracle sc st st3 url rest r hq hb hv hres]
      apply ih
      have h3 : st3.pages = st.pages := by
        have hx := playwrightScrapePage_pages oracle sc st2 url
        rw [hres] at hx
        exact hx
      simp [pwDelay_pages, h3]
      omega
  | case4 st url rest hq hb hv st2 st3 hres ih =>
      rw [playwrightRunLoop_fail_step oracle sc st st3 url rest hq hb hv hres]
      apply ih
      have h3 : st3.pages = st.pages := by
        have hx := playwrightScrapePage_pages oracle sc st2 url
        rw [hres] at hx
        exact hx
      simpa [pwDelay_pages, h3] using h
  | case5 st url rest hq hb =>
      rwa [playwrightRunLoop_eq_budget oracle sc st url rest hq hb]

/-- The Requests loop never grows the page list beyond the budget. -/
theorem requestsRunLoop_budget (oracle : String → FetchOutcome ReqContent)
    (sc : ScraperCtx) (st : CrawlState ReqRec)
    (h : st.pages.length ≤ sc.max_pages.toNat) :
    (requestsRunLoop oracle sc st).pages.length ≤ sc.max_pages.toNat := by
  induction st using requestsRunLoop.induct oracle sc with
  | case1 st hq => rwa [requestsRunLoop_eq_empty oracle sc st hq]
  | case2 st url rest hq hb hv ih =>
      rw [requestsRunLoop_eq_skip oracle sc st url rest hq hb hv]
      exact ih h
  | case3 st url rest hq hb hv st2 r st3 hres ih =>
      rw [requestsRunLoop_eq_succ oracle sc st st3 url rest r hq hb hv hres]
      apply ih
      have h3 : st3.pages = st.pages := by
        have hx := requestsScrapePage_pages oracle sc st2 url
        rw [hres] at hx
        exact hx
      simp [h3]
      omega
  | case4 st url rest hq hb hv st2 st3 hres ih =>
      rw [requestsRunLoop_fail_step oracle sc st st3 url rest hq hb hv hres]
      apply ih
      have h3 : st3.pages = st.pages := by
        have hx := requestsScrapePage_pages oracle sc st2 url
        rw [hres] at hx
        exact hx
      simpa [h3] using h
  | case5 st url rest hq hb =>
      rwa [requestsRunLoop_eq_budget oracle sc st url rest hq hb]

/-- An unbounded same-domain link graph: every page answers 200 and links
to one fresh same-host URL (the current URL with `a` appended), as the
browser strategy sees it. -/
def chainOracle : String → FetchOutcome PwContent :=
  fun u => FetchOutcome.response 200 { dom := emptyDom, links := [u ++ "a"] }

/-- The same unbounded link graph as the plain-HTTP strategy sees it. -/
def chainOracleReq : String → FetchOutcome ReqContent :=
  fun u => FetchOutcome.response 200 { title := "t", text := "x", hrefs := [u ++ "a"] }

/-- A full-mode configuration with `MAX_PAGES = 3`. -/
def cfgFull3 : Config :=
  { target_url := "https://example.com/", job_id := "j",
    extraction_mode := "full", max_pages := some 3,
    content_types := some [], callback_url := none }

set_option maxRecDepth 8000 in
/-- C5: the crawl loop of either strategy runs only while the number of
captured pages is below the budget — from the seed state it never records
more than `max_pages` pages — and on an unbounded same-domain link graph
with `MAX_PAGES = 3` in full mode it records exactly 3 pages and stops
with the queue still nonempty. -/
theorem c5_page_budget_stops_crawl :
    (∀ (oracle : String → FetchOutcome PwContent) (sc : ScraperCtx) (seed : String),
      (playwrightRunLoop oracle sc (initState PageRec seed)).pages.length ≤
        sc.max_pages.toNat) ∧
    (∀ (oracle : String → FetchOutcome ReqContent) (sc : ScraperCtx) (seed : String),
      (requestsRunLoop oracle sc (initState ReqRec seed)).pages.length ≤
        sc.max_pages.toNat) ∧
    ((playwrightRunLoop chainOracle (mkScraperCtx cfgFull3)
        (initState PageRec "https://example.com/")).pages.length = 3 ∧
      (playwrightRunLoop chainOracle (mkScraperCtx cfgFull3)
        (initState PageRec "https://example.com/")).queue ≠ []) ∧
    ((requestsRunLoop chainOracleReq (mkScraperCtx cfgFull3)
        (initState ReqRec "https://example.com/")).pages.length = 3 ∧
      (requestsRunLoop chainOracleReq (mkScraperCtx cfgFull3)
        (initState ReqRec "https://example.com/")).queue ≠ []) := by
  refine ⟨fun oracle sc seed => playwrightRunLoop_budget oracle sc _ (Nat.zero_le _),
    fun oracle sc seed => requestsRunLoop_budget oracle sc _ (Nat.zero_le _), ?_, ?_⟩
  · have e1 : playwrightRunLoop chainOracle (mkScraperCtx cfgFull3)
        ⟨[], ["https://example.com/"], [], []⟩ =
        playwrightRunLoop chainOracle (mkScraperCtx cfgFull3)
        ⟨["https://example.com/"], ["https://example.com/a"],
         [extract_content [] emptyDom "https://example.com/"],
         [Ev.scrapingLog "https://example.com/", Ev.waitingLog, Ev.interSleep]⟩ :=
      playwrightRunLoop_eq_succ chainOracle (mkScraperCtx cfgFull3)
        ⟨[], ["https://example.com/"], [], []⟩
        ⟨["https://example.com/"], ["https://example.com/a"], [],
         [Ev.scrapingLog "https://example.com/"]⟩
        "https://example.com/" [] (extract_content [] emptyDom "https://example.com/")
        rfl (by decide) (by decide) (by decide)
    have e2 : playwrightRunLoop chainOracle (mkScraperCtx cfgFull3)
        ⟨["https://example.com/"], ["https://example.com/a"],
         [extract_content [] emptyDom "https://example.com/"],
         [Ev.scrapingLog "https://example.com/", Ev.waitingLog, Ev.interSleep]⟩ =
        playwrightRunLoop chainOracle (mkScraperCtx cfgFull3)
        ⟨["https://example.com/", "https://example.com/a"], ["https://example.com/aa"],
         [extract_content [] emptyDom "https://example.com/",
          extract_content [] emptyDom "https://example.com/a"],
         [Ev.scrapingLog "https://example.com/", Ev.waitingLog, Ev.interSleep,
          Ev.scrapingLog "https://example.com/a", Ev.waitingLog, Ev.interSleep]⟩ :=
      playwrightRunLoop_eq_succ chainOracle (mkScraperCtx cfgFull3) _
        ⟨["https://example.com/", "https://example.com/a"], ["https://example.com/aa"],
         [extract_content [] emptyDom "https://example.com/"],
         [Ev.scrapingLog "https://example.com/", Ev.waitingLog, Ev.interSleep,
          Ev.scrapingLog "https://example.com/a"]⟩
        "https://example.com/a" [] (extract_content [] emptyDom "https://example.com/a")
        rfl (by decide) (by decide) (by decide)
    have e3 : playwrightRunLoop chainOracle (mkScraperCtx cfgFull3)
        ⟨["https://example.com/", "https://example.com/a"], ["https://example.com/aa"],
         [extract_content [] emptyDom "https://example.com/",
          extract_content [] emptyDom "https://example.com/a"],
         [Ev.scrapingLog "https://example.com/", Ev.waitingLog, Ev.interSleep,
          Ev.scrapingLog "https://example.com/a", Ev.waitingLog, Ev.interSleep]⟩ =
        playwrightRunLoop chainOracle (mkScraperCtx cfgFull3)
        ⟨["https://example.com/", "https://example.com/a", "https://example.com/aa"],
         ["https://example.com/aaa"],
         [extract_content [] emptyDom "https://example.com/",
          extract_content [] emptyDom "https://example.com/a",
          extract_content [] emptyDom "https://example.com/aa"],
         [Ev.scrapingLog "https://example.com/", Ev.waitingLog, Ev.interSleep,
          Ev.scrapingLog "https://example.com/a", Ev.waitingLog, Ev.interSleep,
          Ev.scrapingLog "https://example.com/aa"]⟩ :=
      playwrightRunLoop_eq_succ chainOracle (mkScraperCtx cfgFull3) _
        ⟨["https://example.com/", "https://example.com/a", "https://example.com/aa"],
         ["https://example.com/aaa"],
         [extract_content [] emptyDom "https://example.com/",
          extract_content [] emptyDom "https://example.com/a"],
         [Ev.scrapingLog "https://example.com/", Ev.waitingLog, Ev.interSleep,
          Ev.scrapingLog "https://example.com/a", Ev.waitingLog, Ev.interSleep,
          Ev.scrapingLog "https://example.com/aa"]⟩
        "https://example.com/aa" [] (extract_content [] emptyDom "https://example.com/aa")
        rfl (by decide) (by decide) (by decide)
    have e4 : playwrightRunLoop chainOracle (mkScraperCtx cfgFull3)
        ⟨["https://example.com/", "https://example.com/a", "https://example.com/aa"],
         ["https://example.com/aaa"],
         [extract_content [] emptyDom "https://example.com/",
          extract_content [] emptyDom "https://example.com/a",
          extract_content [] emptyDom "https://example.com/aa"],
         [Ev.scrapingLog "https://example.com/", Ev.waitingLog, Ev.interSleep,
          Ev.scrapingLog "https://example.com/a", Ev.waitingLog, Ev.interSleep,
          Ev.scrapingLog "https://example.com/aa"]⟩ =
        ⟨["https://example.com/", "https://example.com/a", "https://example.com/aa"],
         ["https://example.com/aaa"],
         [extract_content [] emptyDom "https://example.com/",
          extract_content [] emptyDom "https://example.com/a",
          extract_content [] emptyDom "https://example.com/aa"],
         [Ev.scrapingLog "https://example.com/", Ev.waitingLog, Ev.interSleep,
          Ev.scrapingLog "https://example.com/a", Ev.waitingLog, Ev.interSleep,
          Ev.scrapingLog "https://example.com/aa"]⟩ :=
      playwrightRunLoop_eq_budget chainOracle (mkScraperCtx cfgFull3) _
        "https://example.com/aaa" [] rfl (by decide)
    rw [show initState PageRec "https://example.com/" =
      (⟨[], ["https://example.com/"], [], []⟩ : CrawlState PageRec) from rfl, e1, e2, e3, e4]
    exact ⟨rfl, by decide⟩
  · have e1 : requestsRunLoop chainOracleReq (mkScraperCtx cfgFull3)
        ⟨[], ["https://example.com/"], [], []⟩ =
        requestsRunLoop chainOracleReq (mkScraperCtx cfgFull3)
        ⟨["https://example.com/"], ["https://example.com/a"],
         [{ url := "https://example.com/", title := "t", text := "x", text_length := 1 }],
         [Ev.scrapingLog "https://example.com/", Ev.interSleep]⟩ :=
      requestsRunLoop_eq_succ chainOracleReq (mkScraperCtx cfgFull3)
        ⟨[], ["https://example.com/"], [], []⟩
        ⟨["https://example.com/"], ["https://example.com/a"], [],
         [Ev.scrapingLog "https://example.com/"]⟩
        "https://example.com/" []
        { url := "https://example.com/", title := "t", text := "x", text_length := 1 }
        rfl (by decide) (by decide) (by decide)
    have e2 : requestsRunLoop chainOracleReq (mkScraperCtx cfgFull3)
        ⟨["https://example.com/"], ["https://example.com/a"],
         [{ url := "https://example.com/", title := "t", text := "x", text_length := 1 }],
         [Ev.scrapingLog "https://example.com/", Ev.interSleep]⟩ =
        requestsRunLoop chainOracleReq (mkScraperCtx cfgFull3)
        ⟨["https://example.com/", "https://example.com/a"], ["https://example.com/aa"],
         [{ url := "https://example.com/", title := "t", text := "x", text_length := 1 },
          { url := "https://example.com/a", title := "t", text := "x", text_length := 1 }],
         [Ev.scrapingLog "https://example.com/", Ev.interSleep,
          Ev.scrapingLog "https://example.com/a", Ev.interSleep]⟩ :=
      requestsRunLoop_eq_succ chainOracleReq (mkScraperCtx cfgFull3) _
        ⟨["https://example.com/", "https://example.com/a"], ["https://example.com/aa"],
         [{ url := "https://example.com/", title := "t", text := "x", text_length := 1 }],
         [Ev.scrapingLog "https://example.com/", Ev.interSleep,
          Ev.scrapingLog "https://example.com/a"]⟩
        "https://example.com/a" []
        { url := "https://example.com/a", title := "t", text := "x", text_length := 1 }
        rfl (by decide) (by decide) (by decide)
    have e3 : requestsRunLoop chainOracleReq (mkScraperCtx cfgFull3)
        ⟨["https://example.com/", "https://example.com/a"], ["https://example.com/aa"],
         [{ url := "https://example.com/", title := "t", text := "x", text_length := 1 },
          { url := "https://example.com/a", title := "t", text := "x", text_length := 1 }],
         [Ev.scrapingLog "https://example.com/", Ev.interSleep,
          Ev.scrapingLog "https://example.com/a", Ev.interSleep]⟩ =
        requestsRunLoop chainOracleReq (mkScraperCtx cfgFull3)
        ⟨["https://example.com/", "https://example.com/a", "https://example.com/aa"],
         ["https://example.com/aaa"],
         [{ url := "https://example.com/", title := "t", text := "x", text_length := 1 },
          { url := "https://example.com/a", title := "t", text := "x", text_length := 1 },
          { url := "https://example.com/aa", title := "t", text := "x", text_length := 1 }],
         [Ev.scrapingLog "https://example.com/", Ev.interSleep,
          Ev.scrapingLog "https://example.com/a", Ev.interSleep,
          Ev.scrapingLog "https://example.com/aa", Ev.interSleep]⟩ :=
      requestsRunLoop_eq_succ chainOracleReq (mkScraperCtx cfgFull3) _
        ⟨["https://example.com/", "https://example.com/a", "https://example.com/aa"],
         ["https://example.com/aaa"],
         [{ url := "https://example.com/", title := "t", text := "x", text_length := 1 },
          { url := "https://example.com/a", title := "t", text := "x", text_length := 1 }],
         [Ev.scrapingLog "https://example.com/", Ev.interSleep,
          Ev.scrapingLog "https://example.com/a", Ev.interSleep,
          Ev.scrapingLog "https://example.com/aa"]⟩
        "https://example.com/aa" []
        { url := "https://example.com/aa", title := "t", text := "x", text_length := 1 }
        rfl (by decide) (by decide) (by decide)
    have e4 : requestsRunLoop chainOracleReq (mkScraperCtx cfgFull3)
        ⟨["https://example.com/", "https://example.com/a", "https://example.com/aa"],
         ["https://example.com/aaa"],
         [{ url := "https://example.com/", title := "t", text := "x", text_length := 1 },
          { url := "https://example.com/a", title := "t", text := "x", text_length := 1 },
          { url := "https://example.com/aa", title := "t", text := "x", text_length := 1 }],
         [Ev.scrapingLog "https://example.com/", Ev.interSleep,
          Ev.scrapingLog "https://example.com/a", Ev.interSleep,
          Ev.scrapingLog "https://example.com/aa", Ev.interSleep]⟩ =
        ⟨["https://example.com/", "https://example.com/a", "https://example.com/aa"],
         ["https://example.com/aaa"],
         [{ url := "https://example.com/", title := "t", text := "x", text_length := 1 },
          { url := "https://example.com/a", title := "t", text := "x", text_length := 1 },
          { url := "https://example.com/aa", title := "t", text := "x", text_length := 1 }],
         [Ev.scrapingLog "https://example.com/", Ev.interSleep,
          Ev.scrapingLog "https://example.com/a", Ev.interSleep,
          Ev.scrapingLog "https://example.com/aa", Ev.interSleep]⟩ :=
      requestsRunLoop_eq_budget chainOracleReq (mkScraperCtx cfgFull3) _
        "https://example.com/aaa" [] rfl (by decide)
    rw [show initState ReqRec "https://example.com/" =
      (⟨[], ["https://example.com/"], [], []⟩ : CrawlState ReqRec) from rfl, e1, e2, e3, e4]
    exact ⟨rfl, by decide⟩

/-! ## Trace and invariant machinery for the politeness and dedup claims -/

/-- Recognizer for the inter-page sleep event. -/
def isInterSleep : Ev → Bool
  | .interSleep => true
  | _ => false

/-- Recognizer for the `"Scraping: ..."` log event. -/
def isScrapingLog : Ev → Bool
  | .scrapingLog _ => true
  | _ => false

/-- On success the Playwright scrape appends exactly the scraping log. -/
theorem playwrightScrapePage_succ_trace (oracle : String → FetchOutcome PwContent)
    (sc : ScraperCtx) (st st3 : CrawlState PageRec) (u : String) (r : PageRec)
    (h : playwrightScrapePage oracle sc st u = (some r, st3)) :
    st3.trace = st.trace ++ [Ev.scrapingLog u] := by
  unfold playwrightScrapePage at h
  cases ho : oracle u <;> rw [ho] at h <;> simp at h
  rcases h with ⟨-, h⟩
  rw [← h]
  split
  · rw [foldl_playwrightHandleLink_trace]
  · rfl

/-- On failure the Playwright scrape appends the scraping and error logs. -/
theorem playwrightScrapePage_fail_trace (oracle : String → FetchOutcome PwContent)
    (sc : ScraperCtx) (st st3 : CrawlState PageRec) (u : String)
    (h : playwrightScrapePage oracle sc st u = (none, st3)) :
    st3.trace = st.trace ++ [Ev.scrapingLog u] ++ [Ev.errorLog u] := by
  unfold playwrightScrapePage at h
  cases ho : oracle u <;> rw [ho] at h <;> simp at h
  · rw [← h]
    simp
  · rw [← h]
    simp

/-- On success the Requests scrape appends exactly the scraping log. -/
theorem requestsScrapePage_succ_trace (oracle : String → FetchOutcome ReqContent)
    (sc : ScraperCtx) (st st3 : CrawlState ReqRec) (u : String) (r : ReqRec)
    (h : requestsScrapePage oracle sc st u = (some r, st3)) :
    st3.trace = st.trace ++ [Ev.scrapingLog u] := by
  unfold requestsScrapePage at h
  cases ho : oracle u <;> rw [ho] at h <;> simp at h
  rcases h with ⟨-, h⟩
  rw [← h]
  split
  · rw [foldl_requestsHandleHref_trace]
  · rfl

/-- On failure the Requests scrape appends the scraping and error logs. -/
theorem requestsScrapePage_fail_trace (oracle : String → FetchOutcome ReqContent)
    (sc : ScraperCtx) (st st3 : CrawlState ReqRec) (u : String)
    (h : requestsScrapePage oracle sc st u = (none, st3)) :
    st3.trace = st.trace ++ [Ev.scrapingLog u] ++ [Ev.errorLog u] := by
  unfold requestsScrapePage at h
  cases ho : oracle u <;> rw [ho] at h <;> simp at h
  · rw [← h]
    simp
  · rw [← h]
    simp

/-- Queue discipline the Playwright strategy maintains: the pending queue
has no duplicates and is disjoint from the visited set. -/
def pwInv (st : CrawlState PageRec) : Prop :=
  st.queue.Nodup ∧ ∀ u ∈ st.queue, u ∉ st.visited

/-- The Playwright enqueue preserves the queue discipline. -/
theorem playwrightHandleLink_inv (st : CrawlState PageRec) (l : String)
    (h : pwInv st) : pwInv (playwrightHandleLink st l) := by
  unfold playwrightHandleLink
  split
  · rename_i hc
    refine ⟨by simp [List.nodup_append, h.1, hc.2], ?_⟩
    intro u hu
    rcases List.mem_append.mp hu with hu | hu
    · exact h.2 u hu
    · rw [List.mem_singleton] at hu
      exact hu ▸ hc.1
  · exact h

/-- The Playwright link fold preserves the queue discipline. -/
theorem foldl_playwrightHandleLink_inv (links : List String)
    (st : CrawlState PageRec) (h : pwInv st) :
    pwInv (links.foldl playwrightHandleLink st) := by
  induction links generalizing st with
  | nil => exact h
  | cons l ls ih => exact ih _ (playwrightHandleLink_inv st l h)

/-- The Playwright scrape preserves the queue discipline. -/
theorem playwrightScrapePage_inv (oracle : String → FetchOutcome PwContent)
    (sc : ScraperCtx) (st : CrawlState PageRec) (u : String) (h : pwInv st) :
    pwInv (playwrightScrapePage oracle sc st u).2 := by
  have hbase : pwInv { st with trace := st.trace ++ [Ev.scrapingLog u] } := h
  unfold playwrightScrapePage
  cases oracle u with
  | response s c =>
      dsimp only
      split
      · exact foldl_playwrightHandleLink_inv _ _ hbase
      · exact hbase
  | netError => exact hbase
  | timeout => exact hbase

/-- The delay step preserves the queue discipline. -/
theorem pwDelay_inv (sc : ScraperCtx) (st : CrawlState PageRec) (h : pwInv st) :
    pwInv (pwDelay sc st) := by
  unfold pwDelay
  split
  · exact h
  · exact h

/-- The Playwright loop is the identity when its guard fails. -/
theorem playwrightRunLoop_eq_of_stop (oracle : String → FetchOutcome PwContent)
    (sc : ScraperCtx) (st : CrawlState PageRec)
    (hc : ¬ ((st.pages.length : Int) < sc.max_pages ∧ st.queue ≠ [])) :
    playwrightRunLoop oracle sc st = st := by
  cases hq : st.queue with
  | nil => exact playwrightRunLoop_eq_empty oracle sc st hq
  | cons a as =>
      have hb : ¬ (st.pages.length : Int) < sc.max_pages := by
        intro hb
        exact hc ⟨hb, by rw [hq]; simp⟩
      exact playwrightRunLoop_eq_budget oracle sc st a as hq hb

/-- The Requests loop is the identity when its guard fails. -/
theorem requestsRunLoop_eq_of_stop (oracle : String → FetchOutcome ReqContent)
    (sc : ScraperCtx) (st : CrawlState ReqRec)
    (hc : ¬ ((st.pages.length : Int) < sc.max_pages ∧ st.queue ≠ [])) :
    requestsRunLoop oracle sc st = st := by
  cases hq : st.queue with
  | nil => exact requestsRunLoop_eq_empty oracle sc st hq
  | cons a as =>
      have hb : ¬ (st.pages.length : Int) < sc.max_pages := by
        intro hb
        exact hc ⟨hb, by rw [hq]; simp⟩
      exact requestsRunLoop_eq_budget oracle sc st a as hq hb

/-- Under the queue discipline, whenever the Playwright loop actually runs
(nonempty queue, budget not yet spent), its final trace ends with a
scraping or error log — never with the politeness sleep, because the delay
block runs only when another iteration is guaranteed to follow. -/
theorem playwrightRunLoop_trace_last (oracle : String → FetchOutcome PwContent)
    (sc : ScraperCtx) (st : CrawlState PageRec) (hinv : pwInv st)
    (hq0 : st.queue ≠ []) (hb0 : (st.pages.length : Int) < sc.max_pages) :
    ∃ u, (playwrightRunLoop oracle sc st).trace.getLast? = some (Ev.scrapingLog u) ∨
      (playwrightRunLoop oracle sc st).trace.getLast? = some (Ev.errorLog u) := by
  induction st using playwrightRunLoop.induct oracle sc with
  | case1 st hq => exact absurd hq hq0
  | case2 st url rest hq hb hv ih =>
      exact absurd hv (hinv.2 url (by rw [hq]; exact List.mem_cons_self url rest))
  | case3 st url rest hq hb hv st2 r st3 hres ih =>
      rw [playwrightRunLoop_eq_succ oracle sc st st3 url rest r hq hb hv hres]
      have hndc : (url :: rest).Nodup := hq ▸ hinv.1
      have hinv2 : pwInv st2 := by
        refine ⟨(List.nodup_cons.mp hndc).2, ?_⟩
        intro v hv'
        have h1 : v ∉ st.visited :=
          hinv.2 v (by rw [hq]; exact List.mem_cons_of_mem url hv')
        have h2 : v ≠ url := by
          intro he
          exact (List.nodup_cons.mp hndc).1 (he ▸ hv')
        intro hmem
        rcases List.mem_append.mp hmem with hm | hm
        · exact h1 hm
        · exact h2 (List.mem_singleton.mp hm)
      have hinv3 : pwInv st3 := by
        have hx := playwrightScrapePage_inv oracle sc st2 url hinv2
        rw [hres] at hx
        exact hx
      have hinv4 : pwInv { st3 with pages := st3.pages ++ [r] } := hinv3
      by_cases hc : (({ st3 with pages := st3.pages ++ [r] } :
          CrawlState PageRec).pages.length : Int) < sc.max_pages ∧
          ({ st3 with pages := st3.pages ++ [r] } : CrawlState PageRec).queue ≠ []
      · exact ih (pwDelay_inv sc _ hinv4)
          (by rw [pwDelay_queue]; exact hc.2)
          (by rw [pwDelay_pages]; exact hc.1)
      · have h5 : pwDelay sc { st3 with pages := st3.pages ++ [r] } =
            { st3 with pages := st3.pages ++ [r] } := by
          unfold pwDelay
          rw [if_neg hc]
        rw [h5, playwrightRunLoop_eq_of_stop oracle sc _ hc]
        refine ⟨url, Or.inl ?_⟩
        show st3.trace.getLast? = _
        rw [playwrightScrapePage_succ_trace oracle sc st2 st3 url r hres]
        exact List.getLast?_concat _
  | case4 st url rest hq hb hv st2 st3 hres ih =>
      rw [playwrightRunLoop_fail_step oracle sc st st3 url rest hq hb hv hres]
      have hndc : (url :: rest).Nodup := hq ▸ hinv.1
      have hinv2 : pwInv st2 := by
        refine ⟨(List.nodup_cons.mp hndc).2, ?_⟩
        intro v hv'
        have h1 : v ∉ st.visited :=
          hinv.2 v (by rw [hq]; exact List.mem_cons_of_mem url hv')
        have h2 : v ≠ url := by
          intro he
          exact (List.nodup_cons.mp hndc).1 (he ▸ hv')
        intro hmem
        rcases List.mem_append.mp hmem with hm | hm
        · exact h1 hm
        · exact h2 (List.mem_singleton.mp hm)
      have hinv3 : pwInv st3 := by
        have hx := playwrightScrapePage_inv oracle sc st2 url hinv2
        rw [hres] at hx
        exact hx
      by_cases hc : ((st3.pages.length : Int) < sc.max_pages ∧ st3.queue ≠ [])
      · exact ih (pwDelay_inv sc _ hinv3)
          (by rw [pwDelay_queue]; exact hc.2)
          (by rw [pwDelay_pages]; exact hc.1)
      · have h5 : pwDelay sc st3 = st3 := by
          unfold pwDelay
          rw [if_neg hc]
        rw [h5, playwrightRunLoop_eq_of_stop oracle sc _ hc]
        refine ⟨url, Or.inr ?_⟩
        rw [playwrightScrapePage_fail_trace oracle sc st2 st3 url hres]
        exact List.getLast?_concat _
  | case5 st url rest hq hb => exact absurd hb0 hb

/-- In the Requests loop every processed URL contributes exactly one sleep:
the trace always holds as many sleeps as scraping logs. -/
theorem requestsRunLoop_sleep_count (oracle : String → FetchOutcome ReqContent)
    (sc : ScraperCtx) (st : CrawlState ReqRec)
    (h : st.trace.countP isInterSleep = st.trace.countP isScrapingLog) :
    (requestsRunLoop oracle sc st).trace.countP isInterSleep =
      (requestsRunLoop oracle sc st).trace.countP isScrapingLog := by
  induction st using requestsRunLoop.induct oracle sc with
  | case1 st hq => rwa [requestsRunLoop_eq_empty oracle sc st hq]
  | case2 st url rest hq hb hv ih =>
      rw [requestsRunLoop_eq_skip oracle sc st url rest hq hb hv]
      exact ih h
  | case3 st url rest hq hb hv st2 r st3 hres ih =>
      rw [requestsRunLoop_eq_succ oracle sc st st3 url rest r hq hb hv hres]
      apply ih
      have ht : st3.trace = st.trace ++ [Ev.scrapingLog url] :=
        requestsScrapePage_succ_trace oracle sc st2 st3 url r hres
      show (st3.trace ++ [Ev.interSleep]).countP isInterSleep =
        (st3.trace ++ [Ev.interSleep]).countP isScrapingLog
      rw [ht]
      simp [List.countP_append, List.countP_cons, isInterSleep, isScrapingLog, h]
  | case4 st url rest hq hb hv st2 st3 hres ih =>
      rw [requestsRunLoop_fail_step oracle sc st st3 url rest hq hb hv hres]
      apply ih
      have ht : st3.trace = st.trace ++ [Ev.scrapingLog url] ++ [Ev.errorLog url] :=
        requestsScrapePage_fail_trace oracle sc st2 st3 url hres
      show (st3.trace ++ [Ev.interSleep]).countP isInterSleep =
        (st3.trace ++ [Ev.interSleep]).countP isScrapingLog
      rw [ht]
      simp [List.countP_append, List.countP_cons, isInterSleep, isScrapingLog, h]
  | case5 st url rest hq hb =>
      rwa [requestsRunLoop_eq_budget oracle sc st url rest hq hb]

/-- A web with a single page carrying no links, as the plain-HTTP strategy
sees it. -/
def oracleOnePage : String → FetchOutcome ReqContent :=
  fun _ => FetchOutcome.response 200 { title := "t", text := "x", hrefs := [] }

/-- C7 counterexample: a single-page Requests run sleeps after its final
(and only) page — with the queue empty and the budget reached the run's
trace still ends with the inter-page sleep. -/
theorem c7_sleep_after_final_page_counterexample :
    (requestsRunLoop oracleOnePage (mkScraperCtx cfgSingle)
        (initState ReqRec "https://example.com/")).trace =
      [Ev.scrapingLog "https://example.com/", Ev.interSleep] := by
  have e1 : requestsRunLoop oracleOnePage (mkScraperCtx cfgSingle)
      ⟨[], ["https://example.com/"], [], []⟩ =
      requestsRunLoop oracleOnePage (mkScraperCtx cfgSingle)
      ⟨["https://example.com/"], [],
       [{ url := "https://example.com/", title := "t", text := "x", text_length := 1 }],
       [Ev.scrapingLog "https://example.com/", Ev.interSleep]⟩ :=
    requestsRunLoop_eq_succ oracleOnePage (mkScraperCtx cfgSingle)
      ⟨[], ["https://example.com/"], [], []⟩
      ⟨["https://example.com/"], [], [], [Ev.scrapingLog "https://example.com/"]⟩
      "https://example.com/" []
      { url := "https://example.com/", title := "t", text := "x", text_length := 1 }
      rfl (by decide) (by decide) (by decide)
  have e2 : requestsRunLoop oracleOnePage (mkScraperCtx cfgSingle)
      ⟨["https://example.com/"], [],
       [{ url := "https://example.com/", title := "t", text := "x", text_length := 1 }],
       [Ev.scrapingLog "https://example.com/", Ev.interSleep]⟩ =
      ⟨["https://example.com/"], [],
       [{ url := "https://example.com/", title := "t", text := "x", text_length := 1 }],
       [Ev.scrapingLog "https://example.com/", Ev.interSleep]⟩ :=
    requestsRunLoop_eq_empty oracleOnePage (mkScraperCtx cfgSingle) _ rfl
  rw [show initState ReqRec "https://example.com/" =
    (⟨[], ["https://example.com/"], [], []⟩ : CrawlState ReqRec) from rfl, e1, e2]

/-- C7 (amended): in the Playwright strategy the inter-page politeness
delay is skipped once the page budget is reached or the queue is empty, so
a run's trace never ends with the sleep; in the Requests strategy
`time.sleep` runs unconditionally after every processed URL, so each
fetched page — including the final one — is followed by a sleep (exactly
as many sleeps as fetch attempts). -/
theorem c7_delay_skipping :
    (∀ (oracle : String → FetchOutcome PwContent) (sc : ScraperCtx) (seed : String),
      (playwrightRunLoop oracle sc (initState PageRec seed)).trace.getLast? ≠
        some Ev.interSleep) ∧
    (∀ (oracle : String → FetchOutcome ReqContent) (sc : ScraperCtx) (q : List String),
      ((requestsRunLoop oracle sc
        { visited := [], queue := q, pages := [], trace := [] }).trace.countP
          isInterSleep) =
      ((requestsRunLoop oracle sc
        { visited := [], queue := q, pages := [], trace := [] }).trace.countP
          isScrapingLog)) := by
  constructor
  · intro oracle sc seed
    by_cases hb : ((initState PageRec seed).pages.length : Int) < sc.max_pages
    · have hinv : pwInv (initState PageRec seed) := by
        refine ⟨List.nodup_singleton seed, ?_⟩
        intro u hu
        exact List.not_mem_nil u
      obtain ⟨u, h | h⟩ :=
        playwrightRunLoop_trace_last oracle sc (initState PageRec seed) hinv
          (by simp [initState]) hb
      · rw [h]
        simp
      · rw [h]
        simp
    · rw [playwrightRunLoop_eq_budget oracle sc _ seed [] rfl hb]
      simp [initState]
  · intro oracle sc q
    exact requestsRunLoop_sleep_count oracle sc _ rfl

/-! ## Fetch-once and distinct-URL invariants -/

/-- URLs for which a fetch was attempted, read off the trace: one
`"Scraping: ..."` log is printed per fetch attempt. -/
def fetchedUrls (tr : List Ev) : List String :=
  tr.filterMap fun e =>
    match e with
    | .scrapingLog u => some u
    | _ => none

theorem fetchedUrls_append (a b : List Ev) :
    fetchedUrls (a ++ b) = fetchedUrls a ++ fetchedUrls b :=
  List.filterMap_append a b _

theorem fetchedUrls_pwDelay (sc : ScraperCtx) (st : CrawlState PageRec) :
    fetchedUrls (pwDelay sc st).trace = fetchedUrls st.trace := by
  unfold pwDelay
  split
  · show fetchedUrls (st.trace ++ [Ev.waitingLog, Ev.interSleep]) = _
    rw [fetchedUrls_append]
    simp [fetchedUrls]
  · rfl

/-- The dedup invariant: fetch attempts are pairwise distinct and lie in
the visited set, and so do the URLs of the accumulated page records. -/
def crawlDedupInv {α : Type} (urlOf : α → String) (st : CrawlState α) : Prop :=
  (fetchedUrls st.trace).Nodup ∧
  (∀ u ∈ fetchedUrls st.trace, u ∈ st.visited) ∧
  (st.pages.map urlOf).Nodup ∧
  (∀ u ∈ st.pages.map urlOf, u ∈ st.visited)

/-- A successful Playwright scrape records the fetched URL in the record. -/
theorem playwrightScrapePage_succ_url (oracle : String → FetchOutcome PwContent)
    (sc : ScraperCtx) (st st3 : CrawlState PageRec) (u : String) (r : PageRec)
    (h : playwrightScrapePage oracle sc st u = (some r, st3)) : r.url = u := by
  unfold playwrightScrapePage at h
  cases ho : oracle u <;> rw [ho] at h <;> simp at h
  rw [← h.1]
  rfl

/-- A successful Requests scrape records the fetched URL in the record. -/
theorem requestsScrapePage_succ_url (oracle : String → FetchOutcome ReqContent)
    (sc : ScraperCtx) (st st3 : CrawlState ReqRec) (u : String) (r : ReqRec)
    (h : requestsScrapePage oracle sc st u = (some r, st3)) : r.url = u := by
  unfold requestsScrapePage at h
  cases ho : oracle u <;> rw [ho] at h <;> simp at h
  rw [← h.1]

/-- The visited set after a Playwright scrape is the input's. -/
theorem playwrightScrapePage_visited_of_eq (oracle : String → FetchOutcome PwContent)
    (sc : ScraperCtx) (st st3 : CrawlState PageRec) (u : String)
    (res : Option PageRec) (h : playwrightScrapePage oracle sc st u = (res, st3)) :
    st3.visited = st.visited := by
  have hx := playwrightScrapePage_visited oracle sc st u
  rw [h] at hx
  exact hx

/-- The visited set after a Requests scrape is the input's. -/
theorem requestsScrapePage_visited_of_eq (oracle : String → FetchOutcome ReqContent)
    (sc : ScraperCtx) (st st3 : CrawlState ReqRec) (u : String)
    (res : Option ReqRec) (h : requestsScrapePage oracle sc st u = (res, st3)) :
    st3.visited = st.visited := by
  have hx := requestsScrapePage_visited oracle sc st u
  rw [h] at hx
  exact hx

/-- The Playwright loop preserves the dedup invariant. -/
theorem playwrightRunLoop_dedup (oracle : String → FetchOutcome PwContent)
    (sc : ScraperCtx) (st : CrawlState PageRec)
    (h : crawlDedupInv PageRec.url st) :
    crawlDedupInv PageRec.url (playwrightRunLoop oracle sc st) := by
  induction st using playwrightRunLoop.induct oracle sc with
  | case1 st hq => rwa [playwrightRunLoop_eq_empty oracle sc st hq]
  | case2 st url rest hq hb hv ih =>
      rw [playwrightRunLoop_eq_skip oracle sc st url rest hq hb hv]
      exact ih h
  | case3 st url rest hq hb hv st2 r st3 hres ih =>
      rw [playwrightRunLoop_eq_succ oracle sc st st3 url rest r hq hb hv hres]
      apply ih
      have hvis : st3.visited = st.visited ++ [url] :=
        playwrightScrapePage_visited_of_eq oracle sc st2 st3 url _ hres
      have htr : st3.trace = st.trace ++ [Ev.scrapingLog url] :=
        playwrightScrapePage_succ_trace oracle sc st2 st3 url r hres
      have hpg : st3.pages = st.pages := by
        have hx := playwrightScrapePage_pages oracle sc st2 url
        rw [hres] at hx
        exact hx
      have hurl : r.url = url := playwrightScrapePage_succ_url oracle sc st2 st3 url r hres
      have hfet : fetchedUrls (pwDelay sc { st3 with pages := st3.pages ++ [r] }).trace =
          fetchedUrls st.trace ++ [url] := by
        rw [fetchedUrls_pwDelay]
        show fetchedUrls st3.trace = _
        rw [htr, fetchedUrls_append]
        rfl
      refine ⟨?_, ?_, ?_, ?_⟩
      · rw [hfet]
        simp only [List.nodup_append, List.nodup_singleton, true_and]
        refine ⟨h.1, ?_⟩
        intro v hv' hv''
        rw [List.mem_singleton] at hv''
        exact hv (hv'' ▸ h.2.1 v hv')
      · rw [hfet, pwDelay_visited]
        intro v hv'
        show v ∈ st3.visited
        rw [hvis]
        rcases List.mem_append.mp hv' with hm | hm
        · exact List.mem_append.mpr (Or.inl (h.2.1 v hm))
        · exact List.mem_append.mpr (Or.inr hm)
      · rw [pwDelay_pages]
        show ((st3.pages ++ [r]).map PageRec.url).Nodup
        rw [hpg, List.map_append]
        simp only [List.map_cons, List.map_nil, List.nodup_append, List.nodup_singleton,
          true_and]
        refine ⟨h.2.2.1, ?_⟩
        intro v hv' hv''
        rw [List.mem_singleton] at hv''
        rw [hurl] at hv''
        exact hv (hv'' ▸ h.2.2.2 v hv')
      · rw [pwDelay_pages, pwDelay_visited]
        show ∀ u ∈ (st3.pages ++ [r]).map PageRec.url, u ∈ st3.visited
        rw [hpg, hvis, List.map_append]
        intro v hv'
        rcases List.mem_append.mp hv' with hm | hm
        · exact List.mem_append.mpr (Or.inl (h.2.2.2 v hm))
        · simp only [List.map_cons, List.map_nil, List.mem_singleton] at hm
          rw [hurl] at hm
          exact List.mem_append.mpr (Or.inr (by rw [hm]; exact List.mem_singleton.mpr rfl))
  | case4 st url rest hq hb hv st2 st3 hres ih =>
      rw [playwrightRunLoop_fail_step oracle sc st st3 url rest hq hb hv hres]
      apply ih
      have hvis : st3.visited = st.visited ++ [url] :=
        playwrightScrapePage_visited_of_eq oracle sc st2 st3 url _ hres
      have htr : st3.trace = st.trace ++ [Ev.scrapingLog url] ++ [Ev.errorLog url] :=
        playwrightScrapePage_fail_trace oracle sc st2 st3 url hres
      have hpg : st3.pages = st.pages := by
        have hx := playwrightScrapePage_pages oracle sc st2 url
        rw [hres] at hx
        exact hx
      have hfet : fetchedUrls (pwDelay sc st3).trace = fetchedUrls st.trace ++ [url] := by
        rw [fetchedUrls_pwDelay, htr, fetchedUrls_append, fetchedUrls_append]
        simp [fetchedUrls]
      refine ⟨?_, ?_, ?_, ?_⟩
      · rw [hfet]
        simp only [List.nodup_append, List.nodup_singleton, true_and]
        refine ⟨h.1, ?_⟩
        intro v hv' hv''
        rw [List.mem_singleton] at hv''
        exact hv (hv'' ▸ h.2.1 v hv')
      · rw [hfet, pwDelay_visited]
        intro v hv'
        show v ∈ st3.visited
        rw [hvis]
        rcases List.mem_append.mp hv' with hm | hm
        · exact List.mem_append.mpr (Or.inl (h.2.1 v hm))
        · exact List.mem_append.mpr (Or.inr hm)
      · rw [pwDelay_pages, hpg]
        exact h.2.2.1
      · rw [pwDelay_pages, pwDelay_visited, hpg, hvis]
        intro v hv'
        exact List.mem_append.mpr (Or.inl (h.2.2.2 v hv'))
  | case5 st url rest hq hb =>
      rwa [playwrightRunLoop_eq_budget oracle sc st url rest hq hb]

/-- The Requests loop preserves the dedup invariant. -/
theorem requestsRunLoop_dedup (oracle : String → FetchOutcome ReqContent)
    (sc : ScraperCtx) (st : CrawlState ReqRec)
    (h : crawlDedupInv ReqRec.url st) :
    crawlDedupInv ReqRec.url (requestsRunLoop oracle sc st) := by
  induction st using requestsRunLoop.induct oracle sc with
  | case1 st hq => rwa [requestsRunLoop_eq_empty oracle sc st hq]
  | case2 st url rest hq hb hv ih =>
      rw [requestsRunLoop_eq_skip oracle sc st url rest hq hb hv]
      exact ih h
  | case3 st url rest hq hb hv st2 r st3 hres ih =>
      rw [requestsRunLoop_eq_succ oracle sc st st3 url rest r hq hb hv hres]
      apply ih
      have hvis : st3.visited = st.visited ++ [url] :=
        requestsScrapePage_visited_of_eq oracle sc st2 st3 url _ hres
      have htr : st3.trace = st.trace ++ [Ev.scrapingLog url] :=
        requestsScrapePage_succ_trace oracle sc st2 st3 url r hres
      have hpg : st3.pages = st.pages := by
        have hx := requestsScrapePage_pages oracle sc st2 url
        rw [hres] at hx
        exact hx
      have hurl : r.url = url := requestsScrapePage_succ_url oracle sc st2 st3 url r hres
      have hfet : fetchedUrls (st3.trace ++ [Ev.interSleep]) =
          fetchedUrls st.trace ++ [url] := by
        rw [htr, fetchedUrls_append, fetchedUrls_append]
        simp [fetchedUrls]
      refine ⟨?_, ?_, ?_, ?_⟩
      · show (fetchedUrls (st3.trace ++ [Ev.interSleep])).Nodup
        rw [hfet]
        simp only [List.nodup_append, List.nodup_singleton, true_and]
        refine ⟨h.1, ?_⟩
        intro v hv' hv''
        rw [List.mem_singleton] at hv''
        exact hv (hv'' ▸ h.2.1 v hv')
      · show ∀ u ∈ fetchedUrls (st3.trace ++ [Ev.interSleep]), u ∈ st3.visited
        rw [hfet, hvis]
        intro v hv'
        rcases List.mem_append.mp hv' with hm | hm
        · exact List.mem_append.mpr (Or.inl (h.2.1 v hm))
        · exact List.mem_append.mpr (Or.inr hm)
      · show ((st3.pages ++ [r]).map ReqRec.url).Nodup
        rw [hpg, List.map_append]
        simp only [List.map_cons, List.map_nil, List.nodup_append, List.nodup_singleton,
          true_and]
        refine ⟨h.2.2.1, ?_⟩
        intro v hv' hv''
        rw [List.mem_singleton] at hv''
        rw [hurl] at hv''
        exact hv (hv'' ▸ h.2.2.2 v hv')
      · show ∀ u ∈ (st3.pages ++ [r]).map ReqRec.url, u ∈ st3.visited
        rw [hpg, hvis, List.map_append]
        intro v hv'
        rcases List.mem_append.mp hv' with hm | hm
        · exact List.mem_append.mpr (Or.inl (h.2.2.2 v hm))
        · simp only [List.map_cons, List.map_nil, List.mem_singleton] at hm
          rw [hurl] at hm
          exact List.mem_append.mpr (Or.inr (by rw [hm]; exact List.mem_singleton.mpr rfl))
  | case4 st url rest hq hb hv st2 st3 hres ih =>
      rw [requestsRunLoop_fail_step oracle sc st st3 url rest hq hb hv hres]
      apply ih
      have hvis : st3.visited = st.visited ++ [url] :=
        requestsScrapePage_visited_of_eq oracle sc st2 st3 url _ hres
      have htr : st3.trace = st.trace ++ [Ev.scrapingLog url] ++ [Ev.errorLog url] :=
        requestsScrapePage_fail_trace oracle sc st2 st3 url hres
      have hpg : st3.pages = st.pages := by
        have hx := requestsScrapePage_pages oracle sc st2 url
        rw [hres] at hx
        exact hx
      have hfet : fetchedUrls (st3.trace ++ [Ev.interSleep]) =
          fetchedUrls st.trace ++ [url] := by
        rw [htr, fetchedUrls_append, fetchedUrls_append, fetchedUrls_append]
        simp [fetchedUrls]
      refine ⟨?_, ?_, ?_, ?_⟩
      · show (fetchedUrls (st3.trace ++ [Ev.interSleep])).Nodup
        rw [hfet]
        simp only [List.nodup_append, List.nodup_singleton, true_and]
        refine ⟨h.1, ?_⟩
        intro v hv' hv''
        rw [List.mem_singleton] at hv''
        exact hv (hv'' ▸ h.2.1 v hv')
      · show ∀ u ∈ fetchedUrls (st3.trace ++ [Ev.interSleep]), u ∈ st3.visited
        rw [hfet, hvis]
        intro v hv'
        rcases List.mem_append.mp hv' with hm | hm
        · exact List.mem_append.mpr (Or.inl (h.2.1 v hm))
        · exact List.mem_append.mpr (Or.inr hm)
      · show ((st3.pages).map ReqRec.url).Nodup
        rw [hpg]
        exact h.2.2.1
      · show ∀ u ∈ (st3.pages).map ReqRec.url, u ∈ st3.visited
        rw [hpg, hvis]
        intro v hv'
        exact List.mem_append.mpr (Or.inl (h.2.2.2 v hv'))
  | case5 st url rest hq hb =>
      rwa [requestsRunLoop_eq_budget oracle sc st url rest hq hb]

/-- C10: in both strategies, each popped URL is checked against the
visited set and marked visited before fetching, so from any initial queue
— duplicate entries included — every URL is fetched at most once (the
`"Scraping:"` log lines are pairwise distinct) and the `url` fields of the
recorded pages are pairwise distinct. -/
theorem c10_fetch_once_urls_distinct (pwOracle : String → FetchOutcome PwContent)
    (reqOracle : String → FetchOutcome ReqContent) (sc : ScraperCtx)
    (q : List String) :
    ((playwrightRunLoop pwOracle sc
        { visited := [], queue := q, pages := [], trace := [] }).pages.map
          PageRec.url).Nodup ∧
    (fetchedUrls (playwrightRunLoop pwOracle sc
        { visited := [], queue := q, pages := [], trace := [] }).trace).Nodup ∧
    ((requestsRunLoop reqOracle sc
        { visited := [], queue := q, pages := [], trace := [] }).pages.map
          ReqRec.url).Nodup ∧
    (fetchedUrls (requestsRunLoop reqOracle sc
        { visited := [], queue := q, pages := [], trace := [] }).trace).Nodup := by
  have h0pw : crawlDedupInv PageRec.url
      ({ visited := [], queue := q, pages := [], trace := [] } :
        CrawlState PageRec) := by
    refine ⟨List.nodup_nil, ?_, List.nodup_nil, ?_⟩ <;> intro u hu <;> cases hu
  have h0rq : crawlDedupInv ReqRec.url
      ({ visited := [], queue := q, pages := [], trace := [] } :
        CrawlState ReqRec) := by
    refine ⟨List.nodup_nil, ?_, List.nodup_nil, ?_⟩ <;> intro u hu <;> cases hu
  have hpw := playwrightRunLoop_dedup pwOracle sc _ h0pw
  have hrq := requestsRunLoop_dedup reqOracle sc _ h0rq
  exact ⟨hpw.2.2.1, hpw.1, hrq.2.2.1, hrq.1⟩

end Scraper
